import Mathlib

/-!
Shallow embedding of the Trust Center link-key management subsystem of
zigpy-znp (`zigpy_znp/znp/security.py` together with the record types it uses
from `zigpy_znp/types/named.py`), and proofs about the claims of its design
specification.

Bytes are modelled as `Nat` (the code only ever produces values `< 256` where
it matters, and XOR / equality are arity-preserving), byte strings and
key/address values as `List Nat`.  Python list slices `lst[n:]`, `lst[:n]`
with a possibly negative `n` are translated with their exact clamping
semantics.  Fallible Python code (exceptions) is translated to `Except PyErr`.
The NVRAM accessor (`zigpy_znp/nvram.py`, not part of the analysed sources) is
modelled from the spec where needed; such definitions say so in their doc
comments.
-/

namespace ZnpSec

/-- Python exception values raised by the modelled code paths. -/
inductive PyErr where
  /-- `zigpy_znp.exceptions.SecurityError`: the firmware refuses disclosure of
  a protected NVRAM item. -/
  | securityError
  /-- `TypeError`, e.g. binding an unexpected keyword argument; the payload
  names the offending keyword or operand. -/
  | typeError (msg : String)
  /-- `AttributeError`: attribute access on an object that lacks it. -/
  | attributeError (name : String)
  /-- The spec's taxonomy name (§7) for the capacity failure: the code raises
  `RuntimeError("New link key table is larger than the current one")` at
  security.py:397, and the NVRAM accessor's `write_table` fails likewise when
  `len(values)` exceeds the table's existing capacity. -/
  | capacityExceeded (msg : String)
  /-- `ValueError` / deserialization failure. -/
  | valueError (msg : String)
  /-- `IndexError`: list assignment index out of range. -/
  | indexError
  /-- `KeyError`: dictionary lookup of an absent key. -/
  | keyError
deriving DecidableEq, Repr

/-! ## Key Derivation Engine (security.py lines 28-47) -/

/-- security.py line 28: `def rotate(lst, n): return lst[n:] + lst[:n]`,
with Python slice semantics for arbitrary integer `n` (indices clamp to the
list's bounds; a negative index counts from the end). -/
def rotate (lst : List Nat) (n : Int) : List Nat :=
  if 0 ≤ n then lst.drop n.toNat ++ lst.take n.toNat
  else lst.drop (lst.length - (-n).toNat) ++ lst.take (lst.length - (-n).toNat)

/-- security.py line 32: XOR the rotated seed against the address repeated
twice (`ieee.serialize()` is the 8 raw address bytes; `zip` truncates to the
shorter operand, as does `List.zipWith`). -/
def compute_key (ieee seed : List Nat) (shift : Nat) : List Nat :=
  List.zipWith (fun a b => a ^^^ b) (rotate seed shift) (ieee ++ ieee)

/-- security.py line 37: XOR the key against the address repeated twice, then
rotate by `-shift`. -/
def compute_seed (ieee key : List Nat) (shift : Nat) : List Nat :=
  rotate (List.zipWith (fun a b => a ^^^ b) key (ieee ++ ieee)) (-(shift : Int))

/-- security.py line 42: first `shift` in `range(0x00, 0x0F + 1)` whose
`compute_seed` equals `seed`, else `None`. -/
def find_key_shift (ieee key seed : List Nat) : Option Nat :=
  (List.range 16).find? (fun shift => compute_seed ieee key shift == seed)

/-! ## Seed Optimizer (security.py lines 50-62; `max` at line 341) -/

/-- Count of pairs whose key is representable under `seed` at some shift
(security.py line 56). -/
def countMatching (pairs : List (List Nat × List Nat)) (seed : List Nat) : Nat :=
  pairs.countP (fun p => (find_key_shift p.1 p.2 seed).isSome)

/-- The generator body of `iter_seed_candidates`: walk the remaining pairs,
yield `(count, seed)` for each, and break once `count` equals the total
number of pairs. -/
def iterSeedCandidatesAux (all : List (List Nat × List Nat)) :
    List (List Nat × List Nat) → List (Nat × List Nat)
  | [] => []
  | (i, k) :: rest =>
    let seed := compute_seed i k 0
    let count := countMatching all seed
    (count, seed) ::
      (if count = all.length then [] else iterSeedCandidatesAux all rest)

/-- security.py lines 50-62: the finite sequence of `(count, seed)` pairs the
generator yields. -/
def iter_seed_candidates (pairs : List (List Nat × List Nat)) :
    List (Nat × List Nat) :=
  iterSeedCandidatesAux pairs pairs

/-- Python `<` on two lists of numbers: lexicographic. -/
def pyListLt : List Nat → List Nat → Bool
  | [], [] => false
  | [], _ :: _ => true
  | _ :: _, [] => false
  | a :: xs, b :: ys => a < b || (a == b && pyListLt xs ys)

/-- Python `<` on `(count, seed)` tuples: lexicographic on components. -/
def pyPairLt (p q : Nat × List Nat) : Bool :=
  p.1 < q.1 || (p.1 == q.1 && pyListLt p.2 q.2)

/-- Python `max(iterable)`: the running maximum, kept when the next element is
not strictly greater (so the first of equal elements wins). `None` only on an
empty iterable, where CPython raises `ValueError`. -/
def pyMax : List (Nat × List Nat) → Option (Nat × List Nat)
  | [] => none
  | x :: xs => some (xs.foldl (fun m y => if pyPairLt m y then y else m) x)

/-- security.py lines 340-341: the seed `write_devices` uses — the supplied
one, or for a nonempty pair list the `max` of the candidate `(count, seed)`
tuples. -/
def chooseSeed (seedArg : Option (List Nat))
    (pairs : List (List Nat × List Nat)) : Option (List Nat) :=
  if seedArg.isNone && !pairs.isEmpty then
    (pyMax (iter_seed_candidates pairs)).map Prod.snd
  else
    seedArg

example : rotate [0, 1, 2, 3] 1 = [1, 2, 3, 0] := by decide
example : rotate [0, 1, 2, 3] (-1) = [3, 0, 1, 2] := by decide
example : rotate [0, 1, 2, 3] 9 = [0, 1, 2, 3] := by decide
example : rotate [0, 1, 2, 3] (-9) = [0, 1, 2, 3] := by decide

/-! ## Algebra of `rotate` and byte-wise XOR -/

theorem rotate_ofNat (l : List Nat) (n : Nat) :
    rotate l (n : Int) = l.drop n ++ l.take n := by
  simp [rotate, Int.toNat_ofNat]

theorem rotate_negNat (l : List Nat) (n : Nat) :
    rotate l (-(n : Int)) = l.drop (l.length - n) ++ l.take (l.length - n) := by
  rcases Nat.eq_zero_or_pos n with h | h
  · subst h
    simp [rotate]
  · have hneg : ¬ (0 : Int) ≤ -(n : Int) := by omega
    simp only [rotate, if_neg hneg, neg_neg, Int.toNat_ofNat]

theorem rotate_length (l : List Nat) (n : Int) : (rotate l n).length = l.length := by
  unfold rotate
  split <;> (simp; try omega)

theorem rotate_rotate_neg (l : List Nat) (n : Nat) (h : n ≤ l.length) :
    rotate (rotate l (n : Int)) (-(n : Int)) = l := by
  rw [rotate_ofNat, rotate_negNat]
  have hlen : (l.drop n ++ l.take n).length = l.length := by
    simp; omega
  have hdlen : (l.drop n).length = l.length - n := by simp
  rw [hlen]
  rw [List.drop_append_of_le_length (by omega), List.take_append_of_le_length (by omega)]
  have h1 : List.drop (l.length - n) (l.drop n) = [] := by
    apply List.drop_eq_nil_of_le; omega
  have h2 : List.take (l.length - n) (l.drop n) = l.drop n := by
    apply List.take_of_length_le; omega
  rw [h1, h2, List.nil_append, List.take_append_drop]

theorem rotate_neg_rotate (l : List Nat) (n : Nat) (h : n ≤ l.length) :
    rotate (rotate l (-(n : Int))) (n : Int) = l := by
  rw [rotate_negNat, rotate_ofNat]
  have hdlen : (l.drop (l.length - n)).length = n := by simp; omega
  rw [List.drop_append_of_le_length (by omega), List.take_append_of_le_length (by omega)]
  have h1 : List.drop n (l.drop (l.length - n)) = [] := by
    apply List.drop_eq_nil_of_le; omega
  have h2 : List.take n (l.drop (l.length - n)) = l.drop (l.length - n) := by
    apply List.take_of_length_le; omega
  rw [h1, h2, List.nil_append, List.take_append_drop]

theorem rotate_neg_eq_iff (X s : List Nat) (n : Nat)
    (hX : X.length = s.length) (h : n ≤ s.length) :
    rotate X (-(n : Int)) = s ↔ X = rotate s (n : Int) := by
  constructor
  · intro heq
    have := congrArg (fun t => rotate t (n : Int)) heq
    simpa [rotate_neg_rotate X n (hX ▸ h)] using this
  · intro heq
    subst heq
    exact rotate_rotate_neg s n h

theorem zipWith_xor_cancel :
    ∀ (a b : List Nat), a.length ≤ b.length →
      List.zipWith (fun x y => x ^^^ y) (List.zipWith (fun x y => x ^^^ y) a b) b = a
  | [], _, _ => by simp
  | _ :: _, [], h => by simp at h
  | x :: xs, y :: ys, h => by
    simp only [List.zipWith_cons_cons, List.cons.injEq]
    refine ⟨by rw [Nat.xor_assoc, Nat.xor_self, Nat.xor_zero], ?_⟩
    exact zipWith_xor_cancel xs ys (by simpa using h)

theorem compute_key_length (ieee seed : List Nat) (shift : Nat)
    (hieee : ieee.length = 8) (hseed : seed.length = 16) :
    (compute_key ieee seed shift).length = 16 := by
  simp [compute_key, rotate_length, hieee, hseed]

/-- Peeling off the XOR layer: for well-sized inputs, `compute_seed` applied to
`compute_key` is a pure rotation of the seed. -/
theorem compute_seed_compute_key_eq_rotate (ieee seed : List Nat) (shift j : Nat)
    (hieee : ieee.length = 8) (hseed : seed.length = 16) :
    compute_seed ieee (compute_key ieee seed shift) j
      = rotate (rotate seed (shift : Int)) (-(j : Int)) := by
  unfold compute_seed compute_key
  congr 1
  apply zipWith_xor_cancel
  simp [rotate_length, hieee, hseed]

/-- `List.range n |>.find? p` returns the least witness: if `p k` holds,
nothing below `k` satisfies `p`, and `k < n`, the search returns `k`. -/
theorem find?_range_eq_some :
    ∀ (n : Nat) (p : Nat → Bool) (k : Nat), k < n → p k = true →
      (∀ j, j < k → p j = false) → (List.range n).find? p = some k
  | 0, _, k, hk, _, _ => absurd hk (Nat.not_lt_zero k)
  | n + 1, p, k, hk, hpk, hmin => by
    rw [List.range_succ_eq_map]
    cases k with
    | zero =>
      rw [List.find?_cons_of_pos _ hpk]
    | succ k' =>
      rw [List.find?_cons_of_neg _ (by simp [hmin 0 (Nat.succ_pos k')])]
      rw [List.find?_map]
      have ih := find?_range_eq_some n (fun j => p (j + 1)) k'
        (by omega) hpk (fun j hj => hmin (j + 1) (by omega))
      have hcomp : (p ∘ Nat.succ) = fun j => p (j + 1) := rfl
      rw [hcomp, ih]
      rfl

/-! ## Claims C1 and C2: the derive/invert algebra -/

/-- C2: for every 8-byte address, 16-byte seed, and shift in 0..15,
`compute_seed(addr, compute_key(addr, seed, shift), shift)` equals the
original seed — `compute_seed` exactly inverts `compute_key` at the same
shift. -/
theorem C2_compute_seed_inverts_compute_key (ieee seed : List Nat) (shift : Nat)
    (hieee : ieee.length = 8) (hseed : seed.length = 16) (hshift : shift ≤ 15) :
    compute_seed ieee (compute_key ieee seed shift) shift = seed := by
  rw [compute_seed_compute_key_eq_rotate ieee seed shift shift hieee hseed]
  exact rotate_rotate_neg seed shift (by omega)

/-- Witness for C2: the spec's own concrete case (§8): address bytes 0..7,
seed bytes 0..15, shift 3. -/
theorem C2_witness :
    (List.range 8).length = 8 ∧ (List.range 16).length = 16 ∧ (3 : Nat) ≤ 15 ∧
      compute_seed (List.range 8) (compute_key (List.range 8) (List.range 16) 3) 3
        = List.range 16 :=
  ⟨by decide, by decide, by decide,
    C2_compute_seed_inverts_compute_key (List.range 8) (List.range 16) 3
      (by decide) (by decide) (by decide)⟩

/-- C1 counterexample: with the all-zero seed (which is invariant under
rotation) and shift 1, `find_key_shift` returns the first matching shift 0,
not the shift 1 that produced the key. -/
theorem C1_counterexample :
    find_key_shift (List.replicate 8 0)
        (compute_key (List.replicate 8 0) (List.replicate 16 0) 1)
        (List.replicate 16 0) = some 0 ∧ some (0 : Nat) ≠ some 1 := by
  constructor
  · decide
  · decide

/-- C1 as amended: `find_key_shift(addr, compute_key(addr, seed, shift), seed)`
returns the first shift in 0..15 whose rotation of the seed coincides with the
rotation by `shift`; in particular it returns exactly `shift` whenever no
smaller shift rotates the seed to the same list (which holds for every seed
whose 16 rotations are pairwise distinct). -/
theorem C1_find_key_shift_recovers_shift (ieee seed : List Nat) (shift : Nat)
    (hieee : ieee.length = 8) (hseed : seed.length = 16) (hshift : shift < 16)
    (hmin : ∀ j, j < shift → rotate seed (j : Int) ≠ rotate seed (shift : Int)) :
    find_key_shift ieee (compute_key ieee seed shift) seed = some shift := by
  unfold find_key_shift
  apply find?_range_eq_some 16 _ shift hshift
  · rw [beq_iff_eq]
    rw [compute_seed_compute_key_eq_rotate ieee seed shift shift hieee hseed]
    exact rotate_rotate_neg seed shift (by omega)
  · intro j hj
    rw [beq_eq_false_iff_ne]
    rw [compute_seed_compute_key_eq_rotate ieee seed shift j hieee hseed]
    intro hcontra
    apply hmin j hj
    have hx : (rotate seed (shift : Int)).length = seed.length := rotate_length _ _
    have := (rotate_neg_eq_iff (rotate seed (shift : Int)) seed j hx
      (by omega)).mp hcontra
    exact this.symm

/-- Witness for the amended C1 at the spec's concrete case (§8): address bytes
0..7, seed bytes 0..15 (all rotations distinct), shift 3 — the search returns
exactly 3. -/
theorem C1_witness :
    (List.range 8).length = 8 ∧ (List.range 16).length = 16 ∧ (3 : Nat) < 16 ∧
      find_key_shift (List.range 8) (compute_key (List.range 8) (List.range 16) 3)
        (List.range 16) = some 3 :=
  ⟨by decide, by decide, by decide,
    C1_find_key_shift_recovers_shift (List.range 8) (List.range 16) 3
      (by decide) (by decide) (by decide) (by decide)⟩

/-! ## Claim C3: the Seed Optimizer's selection rule -/

theorem pyListLt_irrefl : ∀ l : List Nat, pyListLt l l = false
  | [] => rfl
  | a :: xs => by simp [pyListLt, pyListLt_irrefl xs]

theorem pyListLt_trans :
    ∀ a b c : List Nat, pyListLt a b = true → pyListLt b c = true →
      pyListLt a c = true
  | [], [], _, hab, _ => by simp [pyListLt] at hab
  | [], _ :: _, [], _, hbc => by simp [pyListLt] at hbc
  | [], _ :: _, _ :: _, _, _ => rfl
  | _ :: _, [], _, hab, _ => by simp [pyListLt] at hab
  | _ :: _, _ :: _, [], _, hbc => by simp [pyListLt] at hbc
  | a :: as, b :: bs, c :: cs, hab, hbc => by
    simp only [pyListLt, Bool.or_eq_true, Bool.and_eq_true, beq_iff_eq,
      decide_eq_true_eq] at hab hbc ⊢
    rcases hab with h1 | ⟨h1, h1'⟩ <;> rcases hbc with h2 | ⟨h2, h2'⟩
    · exact Or.inl (by omega)
    · exact Or.inl (by omega)
    · exact Or.inl (by omega)
    · exact Or.inr ⟨by omega, pyListLt_trans as bs cs h1' h2'⟩

theorem pyListLt_trichotomy :
    ∀ a b : List Nat, pyListLt a b = true ∨ a = b ∨ pyListLt b a = true
  | [], [] => Or.inr (Or.inl rfl)
  | [], _ :: _ => Or.inl rfl
  | _ :: _, [] => Or.inr (Or.inr rfl)
  | a :: as, b :: bs => by
    rcases Nat.lt_trichotomy a b with h | h | h
    · left; simp [pyListLt, h]
    · subst h
      rcases pyListLt_trichotomy as bs with h' | h' | h'
      · left; simp [pyListLt, h']
      · right; left; rw [h']
      · right; right; simp [pyListLt, h']
    · right; right; simp [pyListLt, h]

theorem pyPairLt_irrefl (p : Nat × List Nat) : pyPairLt p p = false := by
  simp [pyPairLt, pyListLt_irrefl]

theorem pyPairLt_trans (a b c : Nat × List Nat) (hab : pyPairLt a b = true)
    (hbc : pyPairLt b c = true) : pyPairLt a c = true := by
  simp only [pyPairLt, Bool.or_eq_true, Bool.and_eq_true, beq_iff_eq,
    decide_eq_true_eq] at hab hbc ⊢
  rcases hab with h1 | ⟨h1, h1'⟩ <;> rcases hbc with h2 | ⟨h2, h2'⟩
  · exact Or.inl (by omega)
  · exact Or.inl (by omega)
  · exact Or.inl (by omega)
  · exact Or.inr ⟨by omega, pyListLt_trans _ _ _ h1' h2'⟩

theorem pyPairLt_trichotomy (a b : Nat × List Nat) :
    pyPairLt a b = true ∨ a = b ∨ pyPairLt b a = true := by
  rcases Nat.lt_trichotomy a.1 b.1 with h | h | h
  · left; simp [pyPairLt, h]
  · rcases pyListLt_trichotomy a.2 b.2 with h' | h' | h'
    · left; simp [pyPairLt, h, h']
    · right; left; exact Prod.ext h h'
    · right; right; simp [pyPairLt, h.symm, h']
  · right; right; simp [pyPairLt, h]

theorem pyPairLt_notLt_trans (a b c : Nat × List Nat)
    (hab : pyPairLt a b = false) (hbc : pyPairLt b c = false) :
    pyPairLt a c = false := by
  by_contra h
  have hac : pyPairLt a c = true := by
    cases hetc : pyPairLt a c
    · exact absurd hetc h
    · rfl
  rcases pyPairLt_trichotomy a b with h1 | h1 | h1
  · rw [h1] at hab; exact Bool.noConfusion hab
  · subst h1; rw [hac] at hbc; exact Bool.noConfusion hbc
  · have := pyPairLt_trans b a c h1 hac
    rw [this] at hbc; exact Bool.noConfusion hbc

/-- The running-maximum fold behind `pyMax`: the result is one of the inputs
and no input is strictly greater than it. -/
theorem pyMax_foldl_spec :
    ∀ (xs : List (Nat × List Nat)) (x : Nat × List Nat),
      (xs.foldl (fun m y => if pyPairLt m y then y else m) x = x ∨
        xs.foldl (fun m y => if pyPairLt m y then y else m) x ∈ xs) ∧
      pyPairLt (xs.foldl (fun m y => if pyPairLt m y then y else m) x) x = false ∧
      ∀ p ∈ xs, pyPairLt (xs.foldl (fun m y => if pyPairLt m y then y else m) x) p = false
  | [], x => ⟨Or.inl rfl, pyPairLt_irrefl x, by simp⟩
  | y :: ys, x => by
    have ih := pyMax_foldl_spec ys (if pyPairLt x y then y else x)
    simp only [List.foldl_cons]
    set m := ys.foldl (fun m y => if pyPairLt m y then y else m)
      (if pyPairLt x y then y else x) with hm
    obtain ⟨ihmem, ihstart, ihall⟩ := ih
    by_cases hxy : pyPairLt x y = true
    · rw [if_pos hxy] at ihmem ihstart
      have hmy : pyPairLt m y = false := ihstart
      have hmx : pyPairLt m x = false := by
        by_contra h
        have hmx' : pyPairLt m x = true := by
          cases hetc : pyPairLt m x
          · exact absurd hetc h
          · rfl
        have := pyPairLt_trans m x y hmx' hxy
        rw [this] at hmy; exact Bool.noConfusion hmy
      refine ⟨?_, hmx, ?_⟩
      · rcases ihmem with h | h
        · exact Or.inr (h ▸ List.mem_cons_self y ys)
        · exact Or.inr (List.mem_cons_of_mem y h)
      · intro p hp
        rcases List.mem_cons.mp hp with rfl | hp'
        · exact hmy
        · exact ihall p hp'
    · have hxy' : pyPairLt x y = false := by
        cases hetc : pyPairLt x y
        · rfl
        · exact absurd hetc hxy
      rw [if_neg hxy] at ihmem ihstart
      have hmx : pyPairLt m x = false := ihstart
      have hmy : pyPairLt m y = false := pyPairLt_notLt_trans m x y hmx hxy'
      refine ⟨?_, hmx, ?_⟩
      · rcases ihmem with h | h
        · exact Or.inl h
        · exact Or.inr (List.mem_cons_of_mem y h)
      · intro p hp
        rcases List.mem_cons.mp hp with rfl | hp'
        · exact hmy
        · exact ihall p hp'

theorem pyMax_spec (x : Nat × List Nat) (xs : List (Nat × List Nat)) :
    ∃ m, pyMax (x :: xs) = some m ∧ m ∈ x :: xs ∧
      ∀ p ∈ x :: xs, pyPairLt m p = false := by
  obtain ⟨hmem, hstart, hall⟩ := pyMax_foldl_spec xs x
  refine ⟨_, rfl, ?_, ?_⟩
  · rcases hmem with h | h
    · rw [h]; exact List.mem_cons_self x xs
    · exact List.mem_cons_of_mem x h
  · intro p hp
    rcases List.mem_cons.mp hp with rfl | hp'
    · exact hstart
    · exact hall p hp'

/-- The `(count, seed)` pair the generator yields for candidate pair `p` of
input `all`. -/
def candOf (all : List (List Nat × List Nat)) (p : List Nat × List Nat) :
    Nat × List Nat :=
  (countMatching all (compute_seed p.1 p.2 0), compute_seed p.1 p.2 0)

theorem iterSeedCandidatesAux_spec (all : List (List Nat × List Nat)) :
    ∀ rest : List (List Nat × List Nat),
      iterSeedCandidatesAux all rest =
        (rest.take (iterSeedCandidatesAux all rest).length).map (candOf all) ∧
      (∀ p ∈ (iterSeedCandidatesAux all rest).dropLast, p.1 ≠ all.length) ∧
      ((iterSeedCandidatesAux all rest).length = rest.length ∨
        ∃ p ∈ iterSeedCandidatesAux all rest, p.1 = all.length)
  | [] => by simp [iterSeedCandidatesAux]
  | (i, k) :: rest => by
    by_cases hfull : countMatching all (compute_seed i k 0) = all.length
    · refine ⟨?_, ?_, ?_⟩
      · simp [iterSeedCandidatesAux, hfull, candOf]
      · simp [iterSeedCandidatesAux, hfull]
      · right
        refine ⟨(countMatching all (compute_seed i k 0), compute_seed i k 0), ?_, hfull⟩
        simp [iterSeedCandidatesAux, hfull]
    · obtain ⟨ih1, ih2, ih3⟩ := iterSeedCandidatesAux_spec all rest
      have hstep : iterSeedCandidatesAux all ((i, k) :: rest) =
          (countMatching all (compute_seed i k 0), compute_seed i k 0) ::
            iterSeedCandidatesAux all rest := by
        simp [iterSeedCandidatesAux, hfull]
      refine ⟨?_, ?_, ?_⟩
      · rw [hstep]
        simp only [List.length_cons, List.take_succ_cons, List.map_cons]
        exact congrArg _ (by rw [← ih1])
      · rw [hstep]
        intro p hp
        rcases hcase : iterSeedCandidatesAux all rest with _ | ⟨q, qs⟩
        · rw [hcase] at hp
          simp [List.dropLast] at hp
        · rw [hcase] at hp
          rw [List.dropLast_cons₂] at hp
          rcases List.mem_cons.mp hp with rfl | hp'
          · exact hfull
          · exact ih2 p (by rw [hcase]; exact hp')
      · rw [hstep]
        rcases ih3 with h | ⟨p, hp, hval⟩
        · left; simp [h]
        · right; exact ⟨p, List.mem_cons_of_mem _ hp, hval⟩

/-- C3 counterexample: two pairs at the same (zero) address with keys
`[1,0,…,0]` and `[2,0,…,0]`.  Neither key is a rotation of the other, so both
candidates score count 1; the claim's "first candidate reaching the maximum
wins" would pick the first candidate's seed `[1,0,…,0]`, but `write_devices`
takes Python `max` over `(count, seed)` tuples, which breaks the count tie
toward the lexicographically greater seed `[2,0,…,0]`. -/
theorem C3_counterexample :
    iter_seed_candidates
        [(List.replicate 8 0, 1 :: List.replicate 15 0),
         (List.replicate 8 0, 2 :: List.replicate 15 0)] =
      [(1, 1 :: List.replicate 15 0), (1, 2 :: List.replicate 15 0)] ∧
    chooseSeed none
        [(List.replicate 8 0, 1 :: List.replicate 15 0),
         (List.replicate 8 0, 2 :: List.replicate 15 0)] =
      some (2 :: List.replicate 15 0) ∧
    (2 :: List.replicate 15 0) ≠ (1 :: List.replicate 15 0) := by
  refine ⟨by decide, by decide, by decide⟩

/-- C3 as amended: the Seed Optimizer derives each candidate seed via
`compute_seed` at shift 0 and counts matching pairs via `find_key_shift`
(each yielded element is `candOf`), stops scanning as soon as a candidate's
count equals the input size (only the last yielded candidate may reach the
full count, and a truncated scan ends in one that does), yields no seed for
an empty input, and selects the seed of the lexicographically maximal
`(count, seed)` tuple — so a count tie is broken toward the greater seed,
not toward input order. -/
theorem C3_seed_optimizer (pairs : List (List Nat × List Nat)) :
    iter_seed_candidates ([] : List (List Nat × List Nat)) = [] ∧
    chooseSeed none ([] : List (List Nat × List Nat)) = none ∧
    iter_seed_candidates pairs =
      (pairs.take (iter_seed_candidates pairs).length).map (candOf pairs) ∧
    (∀ p ∈ (iter_seed_candidates pairs).dropLast, p.1 ≠ pairs.length) ∧
    ((iter_seed_candidates pairs).length = pairs.length ∨
      ∃ p ∈ iter_seed_candidates pairs, p.1 = pairs.length) ∧
    (pairs ≠ [] → ∃ m, pyMax (iter_seed_candidates pairs) = some m ∧
      m ∈ iter_seed_candidates pairs ∧
      chooseSeed none pairs = some m.2 ∧
      ∀ p ∈ iter_seed_candidates pairs, pyPairLt m p = false) := by
  obtain ⟨h1, h2, h3⟩ := iterSeedCandidatesAux_spec pairs pairs
  refine ⟨rfl, rfl, h1, h2, h3, ?_⟩
  intro hne
  rcases hp : iter_seed_candidates pairs with _ | ⟨x, xs⟩
  · exfalso
    rcases pairs with _ | ⟨q, qs⟩
    · exact hne rfl
    · have : iterSeedCandidatesAux (q :: qs) (q :: qs) ≠ [] := by
        obtain ⟨i, k⟩ := q
        by_cases hfull : countMatching ((i, k) :: qs) (compute_seed i k 0) =
            ((i, k) :: qs).length <;>
          simp [iterSeedCandidatesAux, hfull]
      exact this hp
  · obtain ⟨m, hm, hmem, hall⟩ := pyMax_spec x xs
    refine ⟨m, hm, hmem, ?_, hall⟩
    have hnonempty : ¬ pairs.isEmpty := by
      cases pairs
      · exact absurd rfl hne
      · simp
    simp only [chooseSeed, Option.isNone_none, Bool.true_and, hnonempty,
      Bool.not_false, if_pos]
    rw [hp, hm]
    rfl

/-- Witness for the amended C3, at the counterexample input: the selector
returns the maximal tuple `(1, [2,0,…,0])`. -/
theorem C3_witness :
    ([(List.replicate 8 0, 1 :: List.replicate 15 0),
      (List.replicate 8 0, 2 :: List.replicate 15 0)] :
        List (List Nat × List Nat)) ≠ [] ∧
    ∃ m, pyMax (iter_seed_candidates
        [(List.replicate 8 0, 1 :: List.replicate 15 0),
         (List.replicate 8 0, 2 :: List.replicate 15 0)]) = some m ∧
      chooseSeed none
        [(List.replicate 8 0, 1 :: List.replicate 15 0),
         (List.replicate 8 0, 2 :: List.replicate 15 0)] = some m.2 := by
  refine ⟨by decide, ?_⟩
  obtain ⟨-, -, -, -, -, hsel⟩ := C3_seed_optimizer
    [(List.replicate 8 0, 1 :: List.replicate 15 0),
     (List.replicate 8 0, 2 :: List.replicate 15 0)]
  obtain ⟨m, hm, -, hc, -⟩ := hsel (by decide)
  exact ⟨m, hm, hc⟩

/-! ## Data model (types/named.py) and NVRAM state -/

/-- named.py line 517: `AddrMgrUserType` flag values. -/
def AddrMgrUserType.Default : Nat := 0x00
def AddrMgrUserType.Assoc : Nat := 0x01
def AddrMgrUserType.Security : Nat := 0x02

/-- named.py line 542: `AuthenticationOption` values. -/
def AuthenticationOption.NotAuthenticated : Nat := 0x00
def AuthenticationOption.AuthenticatedCBCK : Nat := 0x01

/-- named.py line 478/496: the two `KeyAttributes` values security.py uses. -/
def KeyAttributes.PROVISIONAL_KEY : Nat := 0x00
def KeyAttributes.DEFAULT_KEY : Nat := 0xFF

/-- named.py line 462: the two `KeyType` values security.py uses. -/
def KeyType.NONE : Nat := 0
def KeyType.NWK : Nat := 1

/-- security.py line 13: `StoredDevice`. -/
structure StoredDevice where
  ieee : List Nat
  nwk : Nat
  hashed_link_key_shift : Option Nat := none
  aps_link_key : Option (List Nat) := none
  tx_counter : Option Nat := none
  rx_counter : Option Nat := none
deriving DecidableEq, Repr

/-- Python truthiness of `device.aps_link_key` (`None` and the empty key are
falsy). -/
def StoredDevice.hasKey (d : StoredDevice) : Bool :=
  match d.aps_link_key with
  | some k => !k.isEmpty
  | none => false

/-- named.py line 499: `TCLKDevEntry`. -/
structure TCLKDevEntry where
  txFrmCntr : Nat
  rxFrmCntr : Nat
  extAddr : List Nat
  keyAttributes : Nat
  keyType : Nat
  SeedShift_IcIndex : Nat
deriving DecidableEq, Repr

/-- named.py line 525: `AddrMgrEntry`. -/
structure AddrMgrEntry where
  type : Nat
  nwkAddr : Nat
  extAddr : List Nat
deriving DecidableEq, Repr

/-- named.py line 531: `EMPTY_ADDR_MGR_ENTRY`. -/
def EMPTY_ADDR_MGR_ENTRY : AddrMgrEntry :=
  { type := AddrMgrUserType.Default, nwkAddr := 0xFFFF,
    extAddr := List.replicate 8 0xFF }

/-- `APSKeyDataTableEntry` is referenced by security.py (fields `Key`,
`TxFrameCounter`, `RxFrameCounter`, matching `LinkKeyTableEntry` of
named.py line 547); its own declaration is not among the analysed sources. -/
structure APSKeyDataTableEntry where
  Key : List Nat
  TxFrameCounter : Nat
  RxFrameCounter : Nat
deriving DecidableEq, Repr

/-- named.py line 553: `APSLinkKeyTableEntry` — note the declared fields. -/
structure APSLinkKeyTableEntry where
  AddressManagerIndex : Nat
  LinkKeyTableOffset : Nat
  AuthenticationState : Nat
deriving DecidableEq, Repr

/-- The field names `APSLinkKeyTableEntry` declares (named.py lines 554-557). -/
def APSLinkKeyTableEntry.fieldNames : List String :=
  ["AddressManagerIndex", "LinkKeyTableOffset", "AuthenticationState"]

/-- Python attribute access on an `APSLinkKeyTableEntry` instance: the
instance carries exactly the declared fields; any other name raises
`AttributeError`. -/
def APSLinkKeyTableEntry.getattr (e : APSLinkKeyTableEntry) (name : String) :
    Except PyErr Nat :=
  if name = "AddressManagerIndex" then .ok e.AddressManagerIndex
  else if name = "LinkKeyTableOffset" then .ok e.LinkKeyTableOffset
  else if name = "AuthenticationState" then .ok e.AuthenticationState
  else .error (.attributeError name)

/-- Keyword construction `t.APSLinkKeyTableEntry(name₁=v₁, …)`.  The cstruct
base class (cstruct.py, not among the analysed sources) binds the keyword
arguments against a signature made of the declared fields, so binding an
undeclared keyword raises `TypeError` naming it — ordinary Python keyword
binding.  A missing declared field defaults to `None`, modelled as 0; no call
site relies on that default. -/
def mkAPSLinkKeyTableEntry (kwargs : List (String × Nat)) :
    Except PyErr APSLinkKeyTableEntry :=
  match kwargs.find? (fun p => !(APSLinkKeyTableEntry.fieldNames.contains p.1)) with
  | some bad => .error (.typeError bad.1)
  | none =>
    .ok { AddressManagerIndex := ((kwargs.lookup "AddressManagerIndex").getD 0),
          LinkKeyTableOffset := ((kwargs.lookup "LinkKeyTableOffset").getD 0),
          AuthenticationState := ((kwargs.lookup "AuthenticationState").getD 0) }

/-- Serialization of a `uint16_t` (little endian). -/
def u16le (n : Nat) : List Nat := [n % 256, n / 256 % 256]

/-- Serialized form of one `APSLinkKeyTableEntry` (two `uint16_t` and one
`uint8_t`). -/
def serializeAPSLinkKeyTableEntry (e : APSLinkKeyTableEntry) : List Nat :=
  u16le e.AddressManagerIndex ++ u16le e.LinkKeyTableOffset ++
    [e.AuthenticationState % 256]

/-- named.py line 559: `APSLinkKeyTable` is an `LVList` — a `uint16_t` count
followed by the serialized entries. -/
def serializeAPSLinkKeyTable (l : List APSLinkKeyTableEntry) : List Nat :=
  u16le l.length ++ l.flatMap serializeAPSLinkKeyTableEntry

def deserializeAPSLinkKeyTableEntry :
    List Nat → Except PyErr (APSLinkKeyTableEntry × List Nat)
  | a0 :: a1 :: b0 :: b1 :: c :: rest =>
    .ok ({ AddressManagerIndex := a0 + 256 * a1, LinkKeyTableOffset := b0 + 256 * b1,
           AuthenticationState := c }, rest)
  | _ => .error (.valueError "Data is too short")

def deserializeAPSLinkKeyTableEntries :
    Nat → List Nat → Except PyErr (List APSLinkKeyTableEntry × List Nat)
  | 0, rest => .ok ([], rest)
  | n + 1, bs =>
    match deserializeAPSLinkKeyTableEntry bs with
    | .error e => .error e
    | .ok (entry, rest) =>
      match deserializeAPSLinkKeyTableEntries n rest with
      | .error e => .error e
      | .ok (entries, rest') => .ok (entry :: entries, rest')

/-- `t.APSLinkKeyTable.deserialize`: read the `uint16_t` count, then that many
entries; extra trailing bytes are returned unconsumed. -/
def deserializeAPSLinkKeyTable (bs : List Nat) :
    Except PyErr (List APSLinkKeyTableEntry × List Nat) :=
  match bs with
  | c0 :: c1 :: rest => deserializeAPSLinkKeyTableEntries (c0 + 256 * c1) rest
  | _ => .error (.valueError "Data is too short")

/-- The firmware generations the code dispatches on (`app._znp.version`,
compared as the floats 1.2, 3.0 and 3.30). -/
inductive Version where
  | v1_2
  | v3_0
  | v3_30
deriving DecidableEq, Repr

/-- `version > 1.2`. -/
def Version.gt12 : Version → Bool
  | .v1_2 => false
  | _ => true

/-- `version > 3.0` (3.30 only). -/
def Version.gt30 : Version → Bool
  | .v3_30 => true
  | _ => false

/-- `version >= 3.30`. -/
def Version.ge330 : Version → Bool
  | .v3_30 => true
  | _ => false

/-- `version == 3.30`. -/
def Version.eq330 : Version → Bool
  | .v3_30 => true
  | _ => false

/-- The NVRAM contents and session data the modelled code paths touch.
Table-shaped items are held as record lists (records decode deterministically
on read); the indirection table `APS_LINK_KEY_TABLE` is held as raw bytes
because security.py reads and writes it as raw bytes.  The `…Secured` flags
model items whose read fails with `SecurityError` (spec §4.1/§7: a protected
item's disclosure may be refused). -/
structure Nvram where
  version : Version
  tclkSeedSecured : Bool
  tclkSeed : List Nat
  addrMgr : List AddrMgrEntry
  apsLinkKeyTableBytes : List Nat
  tclkTable : List TCLKDevEntry
  apsKeyDataSecured : Bool
  apsKeyData : List APSKeyDataTableEntry
deriving DecidableEq, Repr

/-- One committed NVRAM write, tagged by the logical item written (the legacy
and typed-table addressing modes write the same logical tables). The
`tclkSeed` target exists in NVRAM (item `TCLK_SEED`) and is listed so that
"never writes the seed" is a statement about a real alternative. -/
inductive WriteEvent where
  | addrMgr (entries : List AddrMgrEntry)
  | apsLinkKeyTable (value : List Nat)
  | tclkTable (entries : List TCLKDevEntry)
  | apsKeyDataTable (entries : List APSKeyDataTableEntry)
  | tclkSeed (value : List Nat)
deriving DecidableEq, Repr

/-- The logical NVRAM item a write event targets. -/
inductive NvTarget where
  | addrMgr
  | apsLinkKeyTable
  | tclkTable
  | apsKeyDataTable
  | tclkSeed
deriving DecidableEq, Repr

def WriteEvent.target : WriteEvent → NvTarget
  | .addrMgr _ => .addrMgr
  | .apsLinkKeyTable _ => .apsLinkKeyTable
  | .tclkTable _ => .tclkTable
  | .apsKeyDataTable _ => .apsKeyDataTable
  | .tclkSeed _ => .tclkSeed

/-- Modelled from the spec: the NVRAM Accessor's bulk table write
(`write_table` / `osal_write_table`; zigpy_znp/nvram.py is not among the
analysed sources).  Spec §4.1: writes `values` at ordinals `[0, len(values))`,
pads the remaining previously existing capacity with `fill_value`, and fails
with `CapacityExceeded` when `len(values)` exceeds the table's current
capacity — capacity is read from the device (here: the stored table) and
never grown; §7: no partial write is attempted on that failure. -/
def writeTable {α : Type} (old values : List α) (fill : α) :
    Except PyErr (List α) :=
  if values.length > old.length then .error (.capacityExceeded "write_table")
  else .ok (values ++ List.replicate (old.length - values.length) fill)

/-! ## Device Registry Builder: reading (security.py lines 156-290) -/

/-- `OsalNvIds.LEGACY_APS_LINK_KEY_DATA_START` (types/nvids.py, not among the
analysed sources).  Its numeric value is immaterial to every modelled path:
it is only ever consumed by the `APSLinkKeyTableEntry` construction and
lookup, both of which fail on the undeclared `LinkKeyNvId` field first. -/
def LEGACY_APS_LINK_KEY_DATA_START : Nat := 0x0101

/-- The 16 bytes XORed for one TCLK entry: the seed rotated by the stored
shift, against the address repeated twice (security.py lines 200-201). -/
def hashedKeyData (seed : List Nat) (e : TCLKDevEntry) : List Nat :=
  List.zipWith (fun a b => a ^^^ b)
    (rotate seed (e.SeedShift_IcIndex : Int)) (e.extAddr ++ e.extAddr)

/-- The loop body of `read_hashed_link_keys` (security.py lines 191-204):
skip all-zero addresses, reconstruct each link key from the seed and the
stored shift (`KeyData.deserialize` fails if fewer than 16 bytes remain). -/
def readHashedAux (seed : List Nat) :
    List TCLKDevEntry → Except PyErr (List (List Nat × Nat × Nat × List Nat))
  | [] => .ok []
  | e :: rest =>
    if e.extAddr = List.replicate 8 0 then readHashedAux seed rest
    else
      if (hashedKeyData seed e).length < 16 then
        .error (.valueError "Data is too short")
      else
        match readHashedAux seed rest with
        | .error err => .error err
        | .ok r =>
          .ok ((e.extAddr, e.txFrmCntr, e.rxFrmCntr,
            (hashedKeyData seed e).take 16) :: r)

/-- security.py lines 175-204: with no seed the generator yields nothing;
otherwise it walks the TCLK table (the three physical layouts hold the same
records in this model). -/
def read_hashed_link_keys (seed? : Option (List Nat))
    (table : List TCLKDevEntry) :
    Except PyErr (List (List Nat × Nat × Nat × List Nat)) :=
  match seed? with
  | none => .ok []
  | some seed => readHashedAux seed table

/-- The loop body of `read_unhashed_link_keys` (security.py lines 232-247):
entries not marked AuthenticatedCBCK are skipped; an authenticated entry's
`entry.LinkKeyNvId` attribute read comes first, and the remainder of the body
(raw-key lookup, address-manager join, role asserts) follows it. -/
def readUnhashedAux (st : Nvram) (addrMgr : List AddrMgrEntry) :
    List APSLinkKeyTableEntry →
      Except PyErr (List (List Nat × Nat × Nat × List Nat))
  | [] => .ok []
  | e :: rest =>
    if e.AuthenticationState &&& AuthenticationOption.AuthenticatedCBCK = 0 then
      readUnhashedAux st addrMgr rest
    else
      match e.getattr "LinkKeyNvId" with
      | .error err => .error err
      | .ok nvid =>
        let base := if st.version.eq330 then 0 else LEGACY_APS_LINK_KEY_DATA_START
        match st.apsKeyData.get? (nvid - base), addrMgr.get? e.AddressManagerIndex with
        | some kte, some ame =>
          if ame.type &&& AddrMgrUserType.Assoc ≠ 0 ∧
              ame.type &&& AddrMgrUserType.Security ≠ 0 then
            match readUnhashedAux st addrMgr rest with
            | .error err => .error err
            | .ok r =>
              .ok ((ame.extAddr, kte.TxFrameCounter, kte.RxFrameCounter, kte.Key) :: r)
          else .error (.valueError "AssertionError")
        | _, _ => .error .indexError

/-- security.py lines 207-247: reading the raw-key data table may fail with
`SecurityError` on CC2531 Z-Stack Home 1.2, which the code catches and turns
into "yield nothing"; then the indirection table is deserialized from its raw
bytes and walked. -/
def read_unhashed_link_keys (st : Nvram) (addrMgr : List AddrMgrEntry) :
    Except PyErr (List (List Nat × Nat × Nat × List Nat)) :=
  if st.apsKeyDataSecured then .ok []
  else
    match deserializeAPSLinkKeyTable st.apsLinkKeyTableBytes with
    | .error e => .error e
    | .ok (linkKeyTable, _) => readUnhashedAux st addrMgr linkKeyTable

/-- The fresh `StoredDevice` built for an address-manager entry
(security.py lines 268-271). -/
def initDevice (e : AddrMgrEntry) : StoredDevice :=
  { ieee := e.extAddr, nwk := e.nwkAddr }

/-- Python `dict` lookup keyed by the 8 address bytes. -/
def dictLookup : List (List Nat × StoredDevice) → List Nat → Option StoredDevice
  | [], _ => none
  | (k, v) :: rest, key => if k = key then some v else dictLookup rest key

/-- Python `dict` assignment: replace in place if the key exists (keeping its
insertion position), else append. -/
def dictSet : List (List Nat × StoredDevice) → List Nat → StoredDevice →
    List (List Nat × StoredDevice)
  | [], key, v => [(key, v)]
  | (k, w) :: rest, key, v =>
    if k = key then (k, v) :: rest else (k, w) :: dictSet rest key v

/-- security.py lines 261-273: populate the device dict from the address
manager table, skipping sentinel slots and rejecting unexpected role flags. -/
def buildDeviceDict :
    List AddrMgrEntry → List (List Nat × StoredDevice) →
      Except PyErr (List (List Nat × StoredDevice))
  | [], acc => .ok acc
  | e :: rest, acc =>
    if e.nwkAddr = 0xFFFF then buildDeviceDict rest acc
    else if e.type = AddrMgrUserType.Assoc ∨
        e.type = (AddrMgrUserType.Assoc ||| AddrMgrUserType.Security) then
      buildDeviceDict rest (dictSet acc e.extAddr (initDevice e))
    else .error (.valueError "Unexpected entry type")

/-- security.py lines 275-281: merge the hashed-key pass into the dict;
the shift is re-derived with `find_key_shift` against the current seed. -/
def applyHashed (seed : List Nat) :
    List (List Nat × StoredDevice) → List (List Nat × Nat × Nat × List Nat) →
      Except PyErr (List (List Nat × StoredDevice))
  | dict, [] => .ok dict
  | dict, (ieee, tx, rx, key) :: rest =>
    match dictLookup dict ieee with
    | none => .error .keyError
    | some d =>
      applyHashed seed
        (dictSet dict ieee
          { d with tx_counter := some tx, rx_counter := some rx,
                   aps_link_key := some key,
                   hashed_link_key_shift := find_key_shift ieee key seed })
        rest

/-- security.py lines 283-288: merge the unhashed-key pass into the dict
(no shift field is touched). -/
def applyUnhashed :
    List (List Nat × StoredDevice) → List (List Nat × Nat × Nat × List Nat) →
      Except PyErr (List (List Nat × StoredDevice))
  | dict, [] => .ok dict
  | dict, (ieee, tx, rx, key) :: rest =>
    match dictLookup dict ieee with
    | none => .error .keyError
    | some d =>
      applyUnhashed
        (dictSet dict ieee
          { d with tx_counter := some tx, rx_counter := some rx,
                   aps_link_key := some key })
        rest

/-- security.py lines 251-256: the TCLK seed is read only on firmware newer
than 1.2, with no `SecurityError` handler around the read. -/
def tclkSeedRead (st : Nvram) : Except PyErr (Option (List Nat)) :=
  if st.version.gt12 then
    if st.tclkSeedSecured then .error .securityError
    else .ok (some st.tclkSeed)
  else .ok none

/-- security.py lines 250-290: `read_devices`.  On firmware newer than 1.2
the shared TCLK seed is read (a `SecurityError` from that read propagates —
there is no handler around it); then the address-manager, hashed-key and
unhashed-key passes populate the dict in order. -/
def read_devices (st : Nvram) : Except PyErr (List StoredDevice) :=
  match tclkSeedRead st with
  | .error e => .error e
  | .ok seed? =>
    match buildDeviceDict st.addrMgr [] with
    | .error e => .error e
    | .ok dict0 =>
      match read_hashed_link_keys seed? st.tclkTable with
      | .error e => .error e
      | .ok hashed =>
        match (match seed? with
               | some s => applyHashed s dict0 hashed
               | none => Except.ok dict0) with
        | .error e => .error e
        | .ok dict1 =>
          match read_unhashed_link_keys st st.addrMgr with
          | .error e => .error e
          | .ok unhashed =>
            match applyUnhashed dict1 unhashed with
            | .error e => .error e
            | .ok dict2 => .ok (dict2.map Prod.snd)

/-! ## Device Registry Builder: writing (security.py lines 293-445) -/

/-- security.py lines 294-303: the address-manager entries derived from the
device list (`Security | Assoc` for devices holding a truthy key). -/
def mkAddrMgrEntries (devices : List StoredDevice) : List AddrMgrEntry :=
  devices.map fun d =>
    { type := if d.hasKey then AddrMgrUserType.Security ||| AddrMgrUserType.Assoc
              else AddrMgrUserType.Assoc,
      nwkAddr := d.nwk, extAddr := d.ieee }

/-- security.py lines 293-325: `write_addr_manager_entries`.  On 3.30+ a
typed-table `write_table` (fill `EMPTY_ADDR_MGR_ENTRY`); on older firmware
the whole fixed-size array item is rewritten, `new_entries[index] = entry`
raising `IndexError` if there are more entries than slots. -/
def write_addr_manager_entries (st : Nvram) (devices : List StoredDevice) :
    Except PyErr (Nvram × WriteEvent) :=
  let entries := mkAddrMgrEntries devices
  if st.version.ge330 then
    match writeTable st.addrMgr entries EMPTY_ADDR_MGR_ENTRY with
    | .error e => .error e
    | .ok newTable => .ok ({ st with addrMgr := newTable }, .addrMgr newTable)
  else
    if entries.length > st.addrMgr.length then .error .indexError
    else
      let newTable := entries ++
        List.replicate (st.addrMgr.length - entries.length) EMPTY_ADDR_MGR_ENTRY
      .ok ({ st with addrMgr := newTable }, .addrMgr newTable)

/-- security.py lines 403-410: the TCLK-table fill record. -/
def tclkFillEntry : TCLKDevEntry :=
  { txFrmCntr := 0, rxFrmCntr := 0, extAddr := List.replicate 8 0,
    keyAttributes := KeyAttributes.PROVISIONAL_KEY, keyType := KeyType.NONE,
    SeedShift_IcIndex := 0 }

/-- security.py lines 422-426/440-444: the raw-key-data-table fill record. -/
def apsKeyDataFillEntry : APSKeyDataTableEntry :=
  { Key := List.replicate 16 0, TxFrameCounter := 0, RxFrameCounter := 0 }

/-- security.py line 351 as reached with an optional seed: when `seed` is
`None`, the `seed == compute_seed(...)` comparison inside `find_key_shift` is
always `False`, so the search returns `None`. -/
def findKeyShiftOpt (seed? : Option (List Nat)) (ieee key : List Nat) :
    Option Nat :=
  match seed? with
  | some s => find_key_shift ieee key s
  | none => none

/-- The per-device loop of `write_devices` (security.py lines 347-389),
building the three candidate tables in memory.  `index` is the enumeration
index, `apsCount` the raw-key table length so far (the code stores
`len(aps_key_data_table) - 1` after appending).  A keyed device with no
`tx_counter` fails immediately (`None + counter_increment` raises
`TypeError`); a missing `rx_counter` would make the built record
unserializable, surfaced here as the same construction-time failure.
A device whose key does not match the seed reaches the
`t.APSLinkKeyTableEntry(..., LinkKeyNvId=...)` construction. -/
def buildTables (seed? : Option (List Nat)) (inc : Nat) (version : Version) :
    Nat → Nat → List StoredDevice →
      Except PyErr
        (List TCLKDevEntry × List APSKeyDataTableEntry × List APSLinkKeyTableEntry)
  | _, _, [] => .ok ([], [], [])
  | index, apsCount, d :: rest =>
    match d.aps_link_key with
    | none => buildTables seed? inc version (index + 1) apsCount rest
    | some k =>
      if k.isEmpty then buildTables seed? inc version (index + 1) apsCount rest
      else
        match d.tx_counter, d.rx_counter with
        | some tx, some rx =>
          match findKeyShiftOpt seed? d.ieee k with
          | some shift =>
            match buildTables seed? inc version (index + 1) apsCount rest with
            | .error e => .error e
            | .ok (hashed, apsData, linkKey) =>
              .ok ({ txFrmCntr := tx + inc, rxFrmCntr := rx, extAddr := d.ieee,
                     keyAttributes := KeyAttributes.DEFAULT_KEY,
                     keyType := KeyType.NWK,
                     SeedShift_IcIndex := shift } :: hashed, apsData, linkKey)
          | none =>
            let apsEntry : APSKeyDataTableEntry :=
              { Key := k, TxFrameCounter := tx + inc, RxFrameCounter := rx }
            let start := if version.gt30 then 0 else LEGACY_APS_LINK_KEY_DATA_START
            match mkAPSLinkKeyTableEntry
                [("AddressManagerIndex", index), ("LinkKeyNvId", start + apsCount),
                 ("AuthenticationState", AuthenticationOption.AuthenticatedCBCK)] with
            | .error e => .error e
            | .ok lkEntry =>
              match buildTables seed? inc version (index + 1) (apsCount + 1) rest with
              | .error e => .error e
              | .ok (hashed, apsData, linkKey) =>
                .ok (hashed, apsEntry :: apsData, lkEntry :: linkKey)
        | _, _ => .error (.typeError "unsupported operand type for +: NoneType")

/-- The outcome of a `write_devices` call: the Python result, the NVRAM
state afterwards, and the committed writes in order. -/
structure WResult where
  result : Except PyErr Unit
  state : Nvram
  trace : List WriteEvent
deriving Repr

/-- security.py lines 337-341: the `(ieee, key)` pairs of devices holding a
truthy key, fed to the Seed Optimizer when no seed argument is given. -/
def writeSeedChoice (devices : List StoredDevice) (seed? : Option (List Nat)) :
    Option (List Nat) :=
  chooseSeed seed?
    ((devices.filter (·.hasKey)).map (fun d => (d.ieee, d.aps_link_key.getD [])))

/-- The indirection-table bytes as committed: the serialized table
right-padded with zero bytes (`.ljust`) to the previously stored length. -/
def paddedLinkKeyBytes (st : Nvram) (linkKey : List APSLinkKeyTableEntry) :
    List Nat :=
  serializeAPSLinkKeyTable linkKey ++
    List.replicate
      (st.apsLinkKeyTableBytes.length - (serializeAPSLinkKeyTable linkKey).length)
      0x00

/-- security.py lines 328-445: `write_devices`.  Build all candidate tables
in memory, check the indirection table against the stored table's serialized
length (security.py line 396 raises on overflow — `PyErr.capacityExceeded`
is the spec's name for that `RuntimeError`), then commit: address manager,
indirection table (raw bytes, right-padded with zeros), hashed-key table,
raw-key-data table.  The legacy and typed-table commit paths write the same
logical tables with the same fill records. -/
def write_devices (st : Nvram) (devices : List StoredDevice)
    (counter_increment : Nat) (seed? : Option (List Nat)) : WResult :=
  match buildTables (writeSeedChoice devices seed?) counter_increment st.version 0 0 devices with
  | .error e => ⟨.error e, st, []⟩
  | .ok (hashed, apsData, linkKey) =>
    if (serializeAPSLinkKeyTable linkKey).length > st.apsLinkKeyTableBytes.length then
      ⟨.error (.capacityExceeded "New link key table is larger than the current one"),
        st, []⟩
    else
      match write_addr_manager_entries st devices with
      | .error e => ⟨.error e, st, []⟩
      | .ok (st1, ev1) =>
        match writeTable st1.tclkTable hashed tclkFillEntry with
        | .error e =>
          ⟨.error e, { st1 with apsLinkKeyTableBytes := paddedLinkKeyBytes st linkKey },
            [ev1, .apsLinkKeyTable (paddedLinkKeyBytes st linkKey)]⟩
        | .ok tclkNew =>
          match writeTable st1.apsKeyData apsData apsKeyDataFillEntry with
          | .error e =>
            ⟨.error e,
              { st1 with apsLinkKeyTableBytes := paddedLinkKeyBytes st linkKey,
                         tclkTable := tclkNew },
              [ev1, .apsLinkKeyTable (paddedLinkKeyBytes st linkKey),
                .tclkTable tclkNew]⟩
          | .ok apsNew =>
            ⟨.ok (),
              { st1 with apsLinkKeyTableBytes := paddedLinkKeyBytes st linkKey,
                         tclkTable := tclkNew, apsKeyData := apsNew },
              [ev1, .apsLinkKeyTable (paddedLinkKeyBytes st linkKey),
                .tclkTable tclkNew, .apsKeyDataTable apsNew]⟩


/-! ## Claims C5, C8, C10: the commit protocol of `write_devices` -/

/-- The address-manager table as committed: derived entries padded with
`EMPTY_ADDR_MGR_ENTRY` up to the previously stored length. -/
def paddedAddrMgr (st : Nvram) (devices : List StoredDevice) : List AddrMgrEntry :=
  mkAddrMgrEntries devices ++
    List.replicate (st.addrMgr.length - (mkAddrMgrEntries devices).length)
      EMPTY_ADDR_MGR_ENTRY

theorem write_addr_manager_entries_ok (st : Nvram) (devices : List StoredDevice)
    (st' : Nvram) (ev : WriteEvent)
    (h : write_addr_manager_entries st devices = .ok (st', ev)) :
    st' = { st with addrMgr := paddedAddrMgr st devices } ∧
    ev = .addrMgr (paddedAddrMgr st devices) ∧
    (mkAddrMgrEntries devices).length ≤ st.addrMgr.length := by
  unfold write_addr_manager_entries at h
  by_cases hv : st.version.ge330 = true
  · rw [if_pos hv] at h
    unfold writeTable at h
    by_cases hc : (mkAddrMgrEntries devices).length > st.addrMgr.length
    · rw [if_pos hc] at h
      exact absurd h (by simp)
    · rw [if_neg hc] at h
      simp only [Except.ok.injEq, Prod.mk.injEq] at h
      obtain ⟨h1, h2⟩ := h
      exact ⟨h1.symm, h2.symm, by omega⟩
  · rw [if_neg hv] at h
    by_cases hc : (mkAddrMgrEntries devices).length > st.addrMgr.length
    · rw [if_pos hc] at h
      exact absurd h (by simp)
    · rw [if_neg hc] at h
      simp only [Except.ok.injEq, Prod.mk.injEq] at h
      obtain ⟨h1, h2⟩ := h
      exact ⟨h1.symm, h2.symm, by omega⟩

/-- A failure of the in-memory build phase aborts `write_devices` before any
NVRAM write: the error propagates, the state is untouched, the trace empty. -/
theorem write_devices_build_error (st : Nvram) (devices : List StoredDevice)
    (inc : Nat) (seed? : Option (List Nat)) (e : PyErr)
    (h : buildTables (writeSeedChoice devices seed?) inc st.version 0 0 devices
      = .error e) :
    write_devices st devices inc seed? = ⟨.error e, st, []⟩ := by
  unfold write_devices
  rw [h]

/-- C5: whenever the candidate tables build successfully and the new
indirection (APS link key) table serializes to more bytes than the table
currently stored, `write_devices` fails with the capacity error (the
`RuntimeError` of security.py line 397 — the failure the spec's taxonomy
names `CapacityExceeded`), leaving the NVRAM state unchanged and committing
no write at all.  The stored length it compares against was read from the
device (`osal_read(APS_LINK_KEY_TABLE)`), never assumed, and the table is
never grown. -/
theorem C5_capacity_error_no_write (st : Nvram) (devices : List StoredDevice)
    (inc : Nat) (seed? : Option (List Nat))
    (hashed : List TCLKDevEntry) (apsData : List APSKeyDataTableEntry)
    (linkKey : List APSLinkKeyTableEntry)
    (hbuild : buildTables (writeSeedChoice devices seed?) inc st.version 0 0 devices
      = .ok (hashed, apsData, linkKey))
    (hover : (serializeAPSLinkKeyTable linkKey).length
      > st.apsLinkKeyTableBytes.length) :
    write_devices st devices inc seed? =
      ⟨.error (.capacityExceeded "New link key table is larger than the current one"),
        st, []⟩ := by
  unfold write_devices
  rw [hbuild]
  simp only [hover, if_pos]

/-- Witness for C5: an empty device list against a state whose stored
indirection table is empty (0 bytes) — even the empty table's 2-byte
serialization does not fit, the error is raised, and nothing is written. -/
theorem C5_witness :
    buildTables (writeSeedChoice [] none) 2500 Version.v3_30 0 0 [] =
      .ok ([], [], []) ∧
    (serializeAPSLinkKeyTable []).length > ([] : List Nat).length ∧
    write_devices
        { version := .v3_30, tclkSeedSecured := false,
          tclkSeed := List.replicate 16 0, addrMgr := [],
          apsLinkKeyTableBytes := [], tclkTable := [],
          apsKeyDataSecured := false, apsKeyData := [] } [] 2500 none =
      ⟨.error (.capacityExceeded "New link key table is larger than the current one"),
        { version := .v3_30, tclkSeedSecured := false,
          tclkSeed := List.replicate 16 0, addrMgr := [],
          apsLinkKeyTableBytes := [], tclkTable := [],
          apsKeyDataSecured := false, apsKeyData := [] }, []⟩ :=
  ⟨rfl, by decide,
    C5_capacity_error_no_write _ [] 2500 none [] [] [] rfl (by decide)⟩

/-- Frame facts shared by C8 and C10, by exhausting the commit branches: the
committed targets are always an initial segment of the fixed four-table
order, and the TCLK-seed item (value and protection flag) is never touched. -/
theorem write_devices_frame (st : Nvram) (devices : List StoredDevice)
    (inc : Nat) (seed? : Option (List Nat)) :
    (∃ k, k ≤ 4 ∧
      (write_devices st devices inc seed?).trace.map WriteEvent.target =
        [NvTarget.addrMgr, NvTarget.apsLinkKeyTable, NvTarget.tclkTable,
          NvTarget.apsKeyDataTable].take k) ∧
    (write_devices st devices inc seed?).state.tclkSeed = st.tclkSeed ∧
    (write_devices st devices inc seed?).state.tclkSeedSecured
      = st.tclkSeedSecured := by
  unfold write_devices
  split
  · exact ⟨⟨0, by omega, rfl⟩, rfl, rfl⟩
  · rename_i hashed apsData linkKey hb
    by_cases hover : (serializeAPSLinkKeyTable linkKey).length
        > st.apsLinkKeyTableBytes.length
    · rw [if_pos hover]
      exact ⟨⟨0, by omega, rfl⟩, rfl, rfl⟩
    · rw [if_neg hover]
      split
      · exact ⟨⟨0, by omega, rfl⟩, rfl, rfl⟩
      · rename_i st1 ev1 ha
        obtain ⟨hst1, hev1, -⟩ := write_addr_manager_entries_ok st devices st1 ev1 ha
        split
        · refine ⟨⟨2, by omega, ?_⟩, by rw [hst1], by rw [hst1]⟩
          simp [hev1, WriteEvent.target]
        · split
          · refine ⟨⟨3, by omega, ?_⟩, by rw [hst1], by rw [hst1]⟩
            simp [hev1, WriteEvent.target]
          · refine ⟨⟨4, by omega, ?_⟩, by rw [hst1], by rw [hst1]⟩
            simp [hev1, WriteEvent.target]

/-- A successful `write_devices` committed exactly the four tables, each the
in-memory build result padded with its defined fill record. -/
theorem write_devices_ok_shape (st : Nvram) (devices : List StoredDevice)
    (inc : Nat) (seed? : Option (List Nat))
    (h : (write_devices st devices inc seed?).result = .ok ()) :
    ∃ hashed apsData linkKey,
      buildTables (writeSeedChoice devices seed?) inc st.version 0 0 devices
        = .ok (hashed, apsData, linkKey) ∧
      (write_devices st devices inc seed?).trace =
        [.addrMgr (paddedAddrMgr st devices),
         .apsLinkKeyTable (paddedLinkKeyBytes st linkKey),
         .tclkTable (hashed ++
           List.replicate (st.tclkTable.length - hashed.length) tclkFillEntry),
         .apsKeyDataTable (apsData ++
           List.replicate (st.apsKeyData.length - apsData.length)
             apsKeyDataFillEntry)] := by
  unfold write_devices at h ⊢
  split at h
  · exact absurd h (by simp)
  · rename_i hashed apsData linkKey hb
    refine ⟨hashed, apsData, linkKey, hb, ?_⟩
    split at h
    · exact absurd h (by simp)
    · rename_i hover
      split at h
      · exact absurd h (by simp)
      · rename_i st1 ev1 ha
        obtain ⟨hst1, hev1, -⟩ := write_addr_manager_entries_ok st devices st1 ev1 ha
        split at h
        · exact absurd h (by simp)
        · rename_i tclkNew ht
          split at h
          · exact absurd h (by simp)
          · rename_i apsNew hk
            have htclk : tclkNew = hashed ++
                List.replicate (st.tclkTable.length - hashed.length) tclkFillEntry := by
              unfold writeTable at ht
              by_cases hc : hashed.length > st1.tclkTable.length
              · rw [if_pos hc] at ht; exact absurd ht (by simp)
              · rw [if_neg hc] at ht
                simp only [Except.ok.injEq] at ht
                rw [← ht, hst1]
            have haps : apsNew = apsData ++
                List.replicate (st.apsKeyData.length - apsData.length)
                  apsKeyDataFillEntry := by
              unfold writeTable at hk
              by_cases hc : apsData.length > st1.apsKeyData.length
              · rw [if_pos hc] at hk; exact absurd hk (by simp)
              · rw [if_neg hc] at hk
                simp only [Except.ok.injEq] at hk
                rw [← hk, hst1]
            rw [hev1, htclk, haps, if_neg hover]

/-- C8: in every execution of `write_devices` the build phase is pure — a
build failure commits nothing — the committed writes are always an initial
segment of the fixed order (address manager, indirection table, hashed-key
table, raw-key-data table), and a successful run commits exactly those four
writes in that order, each padding the unused previously-existing capacity
with its defined fill record. -/
theorem C8_build_then_commit_order (st : Nvram) (devices : List StoredDevice)
    (inc : Nat) (seed? : Option (List Nat)) :
    (∀ e, buildTables (writeSeedChoice devices seed?) inc st.version 0 0 devices
        = .error e →
      (write_devices st devices inc seed?).trace = []) ∧
    (∃ k, k ≤ 4 ∧
      (write_devices st devices inc seed?).trace.map WriteEvent.target =
        [NvTarget.addrMgr, NvTarget.apsLinkKeyTable, NvTarget.tclkTable,
          NvTarget.apsKeyDataTable].take k) ∧
    ((write_devices st devices inc seed?).result = .ok () →
      ∃ hashed apsData linkKey,
        buildTables (writeSeedChoice devices seed?) inc st.version 0 0 devices
          = .ok (hashed, apsData, linkKey) ∧
        (write_devices st devices inc seed?).trace =
          [.addrMgr (paddedAddrMgr st devices),
           .apsLinkKeyTable (paddedLinkKeyBytes st linkKey),
           .tclkTable (hashed ++
             List.replicate (st.tclkTable.length - hashed.length) tclkFillEntry),
           .apsKeyDataTable (apsData ++
             List.replicate (st.apsKeyData.length - apsData.length)
               apsKeyDataFillEntry)]) := by
  refine ⟨?_, (write_devices_frame st devices inc seed?).1,
    write_devices_ok_shape st devices inc seed?⟩
  intro e he
  rw [write_devices_build_error st devices inc seed? e he]

/-- Witness for C8: a successful empty-list commit writes the four tables in
order. -/
theorem C8_witness :
    (write_devices
        { version := .v3_30, tclkSeedSecured := false,
          tclkSeed := List.replicate 16 0, addrMgr := [],
          apsLinkKeyTableBytes := [0, 0], tclkTable := [],
          apsKeyDataSecured := false, apsKeyData := [] } [] 2500 none).trace.map
      WriteEvent.target =
      [NvTarget.addrMgr, NvTarget.apsLinkKeyTable, NvTarget.tclkTable,
        NvTarget.apsKeyDataTable] := by
  obtain ⟨-, -, hok⟩ := C8_build_then_commit_order
    { version := .v3_30, tclkSeedSecured := false,
      tclkSeed := List.replicate 16 0, addrMgr := [],
      apsLinkKeyTableBytes := [0, 0], tclkTable := [],
      apsKeyDataSecured := false, apsKeyData := [] } [] 2500 none
  obtain ⟨hashed, apsData, linkKey, -, htrace⟩ := hok rfl
  rw [htrace]
  rfl

/-- C10: `write_devices` never writes the shared TCLK seed item: every
committed write targets one of the four device tables, and the stored seed
item (value and protection flag) is unchanged in the final state, whatever
seed was chosen in memory by the optimizer or the `seed` argument. -/
theorem C10_seed_item_untouched (st : Nvram) (devices : List StoredDevice)
    (inc : Nat) (seed? : Option (List Nat)) :
    (∀ e ∈ (write_devices st devices inc seed?).trace,
      e.target ≠ NvTarget.tclkSeed) ∧
    (write_devices st devices inc seed?).state.tclkSeed = st.tclkSeed ∧
    (write_devices st devices inc seed?).state.tclkSeedSecured
      = st.tclkSeedSecured := by
  obtain ⟨⟨k, -, htargets⟩, hseed, hflag⟩ := write_devices_frame st devices inc seed?
  refine ⟨?_, hseed, hflag⟩
  intro e he hcontra
  have hmem : NvTarget.tclkSeed ∈
      (write_devices st devices inc seed?).trace.map WriteEvent.target := by
    exact hcontra ▸ List.mem_map_of_mem WriteEvent.target he
  rw [htargets] at hmem
  have hsub := List.take_subset k
    [NvTarget.addrMgr, NvTarget.apsLinkKeyTable, NvTarget.tclkTable,
      NvTarget.apsKeyDataTable]
  have := hsub hmem
  simp at this

/-! ## Claim C6: `SecurityError` handling in the read path -/

theorem buildDeviceDict_err :
    ∀ (l : List AddrMgrEntry) (acc : List (List Nat × StoredDevice)) (e : PyErr),
      buildDeviceDict l acc = .error e → e ≠ .securityError
  | [], _, _, h => by simp [buildDeviceDict] at h
  | entry :: rest, acc, e, h => by
    unfold buildDeviceDict at h
    split at h
    · exact buildDeviceDict_err rest acc e h
    · split at h
      · exact buildDeviceDict_err rest _ e h
      · simp only [Except.error.injEq] at h
        rw [← h]
        intro hc
        exact PyErr.noConfusion hc

theorem readHashedAux_err :
    ∀ (table : List TCLKDevEntry) (seed : List Nat) (e : PyErr),
      readHashedAux seed table = .error e → e ≠ .securityError
  | [], _, _, h => by simp [readHashedAux] at h
  | entry :: rest, seed, e, h => by
    unfold readHashedAux at h
    split at h
    · exact readHashedAux_err rest seed e h
    · by_cases hlen : (hashedKeyData seed entry).length < 16
      · rw [if_pos hlen] at h
        simp only [Except.error.injEq] at h
        rw [← h]
        intro hc
        exact PyErr.noConfusion hc
      · rw [if_neg hlen] at h
        split at h
        · rename_i err herr
          simp only [Except.error.injEq] at h
          rw [← h]
          exact readHashedAux_err rest seed err herr
        · exact absurd h (by simp)

theorem read_hashed_link_keys_err (seed? : Option (List Nat))
    (table : List TCLKDevEntry) (e : PyErr)
    (h : read_hashed_link_keys seed? table = .error e) : e ≠ .securityError := by
  unfold read_hashed_link_keys at h
  split at h
  · exact absurd h (by simp)
  · exact readHashedAux_err table _ e h

theorem applyHashed_err :
    ∀ (items : List (List Nat × Nat × Nat × List Nat)) (seed : List Nat)
      (dict : List (List Nat × StoredDevice)) (e : PyErr),
      applyHashed seed dict items = .error e → e ≠ .securityError
  | [], _, _, _, h => by simp [applyHashed] at h
  | item :: rest, seed, dict, e, h => by
    obtain ⟨ieee, tx, rx, key⟩ := item
    unfold applyHashed at h
    split at h
    · simp only [Except.error.injEq] at h
      rw [← h]
      intro hc
      exact PyErr.noConfusion hc
    · exact applyHashed_err rest seed _ e h

theorem applyUnhashed_err :
    ∀ (items : List (List Nat × Nat × Nat × List Nat))
      (dict : List (List Nat × StoredDevice)) (e : PyErr),
      applyUnhashed dict items = .error e → e ≠ .securityError
  | [], _, _, h => by simp [applyUnhashed] at h
  | item :: rest, dict, e, h => by
    obtain ⟨ieee, tx, rx, key⟩ := item
    unfold applyUnhashed at h
    split at h
    · simp only [Except.error.injEq] at h
      rw [← h]
      intro hc
      exact PyErr.noConfusion hc
    · exact applyUnhashed_err rest _ e h

theorem deserializeAPSLinkKeyTableEntry_err (bs : List Nat) (e : PyErr)
    (h : deserializeAPSLinkKeyTableEntry bs = .error e) : e ≠ .securityError := by
  unfold deserializeAPSLinkKeyTableEntry at h
  split at h
  · exact absurd h (by simp)
  · simp only [Except.error.injEq] at h
    rw [← h]
    intro hc
    exact PyErr.noConfusion hc

theorem deserializeAPSLinkKeyTableEntries_err :
    ∀ (n : Nat) (bs : List Nat) (e : PyErr),
      deserializeAPSLinkKeyTableEntries n bs = .error e → e ≠ .securityError
  | 0, bs, e, h => by simp [deserializeAPSLinkKeyTableEntries] at h
  | n + 1, bs, e, h => by
    unfold deserializeAPSLinkKeyTableEntries at h
    split at h
    · rename_i err herr
      simp only [Except.error.injEq] at h
      rw [← h]
      exact deserializeAPSLinkKeyTableEntry_err bs err herr
    · split at h
      · rename_i err herr
        simp only [Except.error.injEq] at h
        rw [← h]
        exact deserializeAPSLinkKeyTableEntries_err n _ err herr
      · exact absurd h (by simp)

theorem deserializeAPSLinkKeyTable_err (bs : List Nat) (e : PyErr)
    (h : deserializeAPSLinkKeyTable bs = .error e) : e ≠ .securityError := by
  unfold deserializeAPSLinkKeyTable at h
  split at h
  · exact deserializeAPSLinkKeyTableEntries_err _ _ e h
  · simp only [Except.error.injEq] at h
    rw [← h]
    intro hc
    exact PyErr.noConfusion hc

theorem readUnhashedAux_err :
    ∀ (entries : List APSLinkKeyTableEntry) (st : Nvram)
      (am : List AddrMgrEntry) (e : PyErr),
      readUnhashedAux st am entries = .error e → e ≠ .securityError
  | [], _, _, _, h => by simp [readUnhashedAux] at h
  | entry :: rest, st, am, e, h => by
    unfold readUnhashedAux at h
    split at h
    · exact readUnhashedAux_err rest st am e h
    · rw [show entry.getattr "LinkKeyNvId"
          = Except.error (PyErr.attributeError "LinkKeyNvId") from rfl] at h
      simp only [Except.error.injEq] at h
      rw [← h]
      intro hc
      exact PyErr.noConfusion hc

theorem read_unhashed_link_keys_err (st : Nvram) (am : List AddrMgrEntry)
    (e : PyErr) (h : read_unhashed_link_keys st am = .error e) :
    e ≠ .securityError := by
  unfold read_unhashed_link_keys at h
  split at h
  · exact absurd h (by simp)
  · split at h
    · rename_i err herr
      simp only [Except.error.injEq] at h
      rw [← h]
      exact deserializeAPSLinkKeyTable_err _ err herr
    · exact readUnhashedAux_err _ st am e h

/-- C6 counterexample: on firmware newer than 1.2, `read_devices` reads the
shared TCLK seed with no `SecurityError` handler around it, so a refused
disclosure propagates out of `read_devices` instead of degrading to "seed
unavailable". -/
theorem C6_counterexample :
    read_devices
        { version := .v3_0, tclkSeedSecured := true, tclkSeed := [],
          addrMgr := [], apsLinkKeyTableBytes := [], tclkTable := [],
          apsKeyDataSecured := false, apsKeyData := [] } =
      .error .securityError := rfl

/-- C6 as amended: the only `SecurityError` `read_devices` can propagate is
the unguarded TCLK-seed read (firmware newer than 1.2); when the seed item is
disclosable, no `SecurityError` escapes — in particular, when the raw-key
data table is undisclosable (oldest hardware generation), the unhashed-key
pass yields nothing instead of failing. -/
theorem C6_security_error_only_from_seed_read (st : Nvram)
    (h : st.tclkSeedSecured = false) :
    read_devices st ≠ .error .securityError ∧
    (st.apsKeyDataSecured = true →
      ∀ am, read_unhashed_link_keys st am = .ok []) := by
  constructor
  · unfold read_devices
    intro hcontra
    split at hcontra
    · rename_i err herr
      simp only [Except.error.injEq] at hcontra
      rw [hcontra] at herr
      unfold tclkSeedRead at herr
      rw [h] at herr
      split at herr
      · exact absurd herr (by simp)
      · exact absurd herr (by simp)
    · rename_i seed? hseed
      split at hcontra
      · rename_i err herr
        simp only [Except.error.injEq] at hcontra
        exact buildDeviceDict_err _ _ _ herr hcontra
      · split at hcontra
        · rename_i err herr
          simp only [Except.error.injEq] at hcontra
          exact read_hashed_link_keys_err _ _ _ herr hcontra
        · split at hcontra
          · rename_i err herr
            simp only [Except.error.injEq] at hcontra
            rw [hcontra] at herr
            cases hs : seed? with
            | some s =>
              rw [hs] at herr
              exact applyHashed_err _ _ _ _ herr rfl
            | none =>
              rw [hs] at herr
              exact absurd herr (by simp)
          · split at hcontra
            · rename_i err herr
              simp only [Except.error.injEq] at hcontra
              exact read_unhashed_link_keys_err _ _ _ herr hcontra
            · split at hcontra
              · rename_i err herr
                simp only [Except.error.injEq] at hcontra
                exact applyUnhashed_err _ _ _ herr hcontra
              · exact absurd hcontra (by simp)
  · intro hsec am
    unfold read_unhashed_link_keys
    rw [hsec]
    rfl

/-- Witness for the amended C6: a state whose seed is disclosable but whose
raw-key data table is protected — `read_devices` cannot return
`SecurityError`, and the unhashed-key pass yields nothing. -/
theorem C6_witness :
    read_devices
        { version := .v1_2, tclkSeedSecured := false, tclkSeed := [],
          addrMgr := [], apsLinkKeyTableBytes := [], tclkTable := [],
          apsKeyDataSecured := true, apsKeyData := [] } ≠
      .error .securityError ∧
    ((true : Bool) = true →
      ∀ am, read_unhashed_link_keys
        { version := .v1_2, tclkSeedSecured := false, tclkSeed := [],
          addrMgr := [], apsLinkKeyTableBytes := [], tclkTable := [],
          apsKeyDataSecured := true, apsKeyData := [] } am = .ok []) :=
  C6_security_error_only_from_seed_read
    { version := .v1_2, tclkSeedSecured := false, tclkSeed := [],
      addrMgr := [], apsLinkKeyTableBytes := [], tclkTable := [],
      apsKeyDataSecured := true, apsKeyData := [] } rfl

/-! ## Claim C9: the undeclared `LinkKeyNvId` field -/

theorem buildTables_undeclared_field_error :
    ∀ (devices : List StoredDevice) (seed? : Option (List Nat)) (inc : Nat)
      (version : Version) (index apsCount : Nat),
      (∀ d ∈ devices, d.hasKey = true →
        d.tx_counter.isSome ∧ d.rx_counter.isSome) →
      (∃ d ∈ devices, d.hasKey = true ∧
        findKeyShiftOpt seed? d.ieee (d.aps_link_key.getD []) = none) →
      buildTables seed? inc version index apsCount devices =
        .error (.typeError "LinkKeyNvId")
  | [], _, _, _, _, _, _, hex => by simp at hex
  | d :: rest, seed?, inc, version, index, apsCount, hcnt, hex => by
    unfold buildTables
    split
    · rename_i hk
      have hnk : d.hasKey = false := by simp [StoredDevice.hasKey, hk]
      apply buildTables_undeclared_field_error rest seed? inc version _ _
      · intro d' hd' h'
        exact hcnt d' (List.mem_cons_of_mem d hd') h'
      · obtain ⟨d', hd', hkey', hshift'⟩ := hex
        rcases List.mem_cons.mp hd' with rfl | hd''
        · rw [hnk] at hkey'
          exact absurd hkey' (by simp)
        · exact ⟨d', hd'', hkey', hshift'⟩
    · rename_i k hk
      by_cases hke : k.isEmpty
      · rw [if_pos hke]
        have hnk : d.hasKey = false := by simp [StoredDevice.hasKey, hk, hke]
        apply buildTables_undeclared_field_error rest seed? inc version _ _
        · intro d' hd' h'
          exact hcnt d' (List.mem_cons_of_mem d hd') h'
        · obtain ⟨d', hd', hkey', hshift'⟩ := hex
          rcases List.mem_cons.mp hd' with rfl | hd''
          · rw [hnk] at hkey'
            exact absurd hkey' (by simp)
          · exact ⟨d', hd'', hkey', hshift'⟩
      · rw [if_neg hke]
        have hkey : d.hasKey = true := by simp [StoredDevice.hasKey, hk, hke]
        obtain ⟨htx, hrx⟩ := hcnt d (List.mem_cons_self d rest) hkey
        obtain ⟨tx, htx'⟩ := Option.isSome_iff_exists.mp htx
        obtain ⟨rx, hrx'⟩ := Option.isSome_iff_exists.mp hrx
        rw [htx', hrx']
        cases hshift : findKeyShiftOpt seed? d.ieee k with
        | none => rfl
        | some shift =>
          have hrest : buildTables seed? inc version (index + 1) apsCount rest =
              .error (.typeError "LinkKeyNvId") := by
            apply buildTables_undeclared_field_error rest seed? inc version _ _
            · intro d' hd' h'
              exact hcnt d' (List.mem_cons_of_mem d hd') h'
            · obtain ⟨d', hd', hkey', hshift'⟩ := hex
              rcases List.mem_cons.mp hd' with rfl | hd''
              · rw [hk] at hshift'
                simp only [Option.getD_some] at hshift'
                rw [hshift'] at hshift
                exact Option.noConfusion hshift
              · exact ⟨d', hd'', hkey', hshift'⟩
          rw [hrest]

theorem readUnhashedAux_auth_error :
    ∀ (entries : List APSLinkKeyTableEntry) (st : Nvram)
      (am : List AddrMgrEntry),
      (∃ e ∈ entries,
        e.AuthenticationState &&& AuthenticationOption.AuthenticatedCBCK ≠ 0) →
      readUnhashedAux st am entries = .error (.attributeError "LinkKeyNvId")
  | [], _, _, hex => by simp at hex
  | e :: rest, st, am, hex => by
    unfold readUnhashedAux
    by_cases hauth :
        e.AuthenticationState &&& AuthenticationOption.AuthenticatedCBCK = 0
    · rw [if_pos hauth]
      apply readUnhashedAux_auth_error rest st am
      obtain ⟨e', he', hval⟩ := hex
      rcases List.mem_cons.mp he' with rfl | he''
      · exact absurd hauth hval
      · exact ⟨e', he'', hval⟩
    · rw [if_neg hauth]
      rw [show e.getattr "LinkKeyNvId"
          = Except.error (PyErr.attributeError "LinkKeyNvId") from rfl]

/-- C9: the code names a field `LinkKeyNvId` on `APSLinkKeyTableEntry`,
whereas the declared struct (named.py lines 553-557) has only
`AddressManagerIndex`, `LinkKeyTableOffset` and `AuthenticationState`.
Consequently (a) any `write_devices` call processing a keyed device whose key
is not derivable from the chosen seed fails with the field error before any
write, and (b) any `read_unhashed_link_keys` call reaching an indirection
entry marked AuthenticatedCBCK fails with the field error instead of
completing the unhashed-key path. -/
theorem C9_LinkKeyNvId_field_error :
    (∀ (st : Nvram) (devices : List StoredDevice) (inc : Nat)
        (seed? : Option (List Nat)),
      (∀ d ∈ devices, d.hasKey = true →
        d.tx_counter.isSome ∧ d.rx_counter.isSome) →
      (∃ d ∈ devices, d.hasKey = true ∧
        findKeyShiftOpt (writeSeedChoice devices seed?) d.ieee
          (d.aps_link_key.getD []) = none) →
      write_devices st devices inc seed? =
        ⟨.error (.typeError "LinkKeyNvId"), st, []⟩) ∧
    (∀ (st : Nvram) (am : List AddrMgrEntry)
        (entries : List APSLinkKeyTableEntry) (rest : List Nat),
      st.apsKeyDataSecured = false →
      deserializeAPSLinkKeyTable st.apsLinkKeyTableBytes = .ok (entries, rest) →
      (∃ e ∈ entries,
        e.AuthenticationState &&& AuthenticationOption.AuthenticatedCBCK ≠ 0) →
      read_unhashed_link_keys st am = .error (.attributeError "LinkKeyNvId")) := by
  constructor
  · intro st devices inc seed? hcnt hex
    apply write_devices_build_error
    exact buildTables_undeclared_field_error devices _ inc st.version 0 0 hcnt hex
  · intro st am entries rest hsec hdeser hex
    unfold read_unhashed_link_keys
    rw [hsec]
    simp only [Bool.false_eq_true, if_false, hdeser]
    exact readUnhashedAux_auth_error entries st am hex

/-- Witness for C9: a device whose key (`[1,0,…,0]`) is not derivable from
the all-zero seed makes `write_devices` fail with the `LinkKeyNvId` field
error before any write; an indirection table with one AuthenticatedCBCK
entry makes the unhashed-key read fail likewise. -/
theorem C9_witness :
    write_devices
        { version := .v3_30, tclkSeedSecured := false,
          tclkSeed := List.replicate 16 0, addrMgr := [],
          apsLinkKeyTableBytes := [0, 0], tclkTable := [],
          apsKeyDataSecured := false, apsKeyData := [] }
        [{ ieee := List.replicate 8 0, nwk := 1,
           hashed_link_key_shift := none,
           aps_link_key := some (1 :: List.replicate 15 0),
           tx_counter := some 0, rx_counter := some 0 }]
        2500 (some (List.replicate 16 0)) =
      ⟨.error (.typeError "LinkKeyNvId"),
        { version := .v3_30, tclkSeedSecured := false,
          tclkSeed := List.replicate 16 0, addrMgr := [],
          apsLinkKeyTableBytes := [0, 0], tclkTable := [],
          apsKeyDataSecured := false, apsKeyData := [] }, []⟩ ∧
    read_unhashed_link_keys
        { version := .v3_30, tclkSeedSecured := false,
          tclkSeed := List.replicate 16 0, addrMgr := [],
          apsLinkKeyTableBytes := [1, 0, 0, 0, 0, 0, 1], tclkTable := [],
          apsKeyDataSecured := false, apsKeyData := [] } [] =
      .error (.attributeError "LinkKeyNvId") :=
  ⟨C9_LinkKeyNvId_field_error.1 _ _ 2500 _ (by decide) (by decide),
    C9_LinkKeyNvId_field_error.2 _ []
      [{ AddressManagerIndex := 0, LinkKeyTableOffset := 0,
         AuthenticationState := 1 }] [] rfl rfl (by decide)⟩

/-! ## Claim C7: the `StoredDevice` invariant after `read_devices` -/

/-- The invariant carried through the device dict: the key under which a
device is stored is its address, a shift is present only alongside a key,
and a key comes with both counters and a re-derived shift. -/
def DevInv (seed : List Nat) (p : List Nat × StoredDevice) : Prop :=
  p.2.ieee = p.1 ∧
  (p.2.hashed_link_key_shift ≠ none → p.2.aps_link_key ≠ none) ∧
  (∀ k, p.2.aps_link_key = some k →
    p.2.tx_counter ≠ none ∧ p.2.rx_counter ≠ none ∧
    p.2.hashed_link_key_shift = find_key_shift p.2.ieee k seed)

theorem dictLookup_mem :
    ∀ (dict : List (List Nat × StoredDevice)) (key : List Nat) (v : StoredDevice),
      dictLookup dict key = some v → (key, v) ∈ dict
  | [], _, _, h => by simp [dictLookup] at h
  | (k, w) :: rest, key, v, h => by
    unfold dictLookup at h
    split at h
    · rename_i hk
      simp only [Option.some.injEq] at h
      rw [← hk, ← h]
      exact List.mem_cons_self _ _
    · exact List.mem_cons_of_mem _ (dictLookup_mem rest key v h)

theorem dictSet_forall (P : List Nat × StoredDevice → Prop) :
    ∀ (dict : List (List Nat × StoredDevice)) (key : List Nat) (v : StoredDevice),
      (∀ p ∈ dict, P p) → P (key, v) → ∀ p ∈ dictSet dict key v, P p
  | [], key, v, _, hv, p, hp => by
    simp only [dictSet, List.mem_singleton] at hp
    rw [hp]; exact hv
  | (k, w) :: rest, key, v, hall, hv, p, hp => by
    unfold dictSet at hp
    split at hp
    · rename_i hk
      rcases List.mem_cons.mp hp with rfl | hp'
      · rw [hk]; exact hv
      · exact hall p (List.mem_cons_of_mem _ hp')
    · rcases List.mem_cons.mp hp with rfl | hp'
      · exact hall _ (List.mem_cons_self _ _)
      · exact dictSet_forall P rest key v
          (fun q hq => hall q (List.mem_cons_of_mem _ hq)) hv p hp'

theorem buildDeviceDict_inv (seed : List Nat) :
    ∀ (l : List AddrMgrEntry) (acc dict : List (List Nat × StoredDevice)),
      (∀ p ∈ acc, DevInv seed p) → buildDeviceDict l acc = .ok dict →
        ∀ p ∈ dict, DevInv seed p
  | [], acc, dict, hacc, h => by
    simp only [buildDeviceDict, Except.ok.injEq] at h
    rw [← h]; exact hacc
  | e :: rest, acc, dict, hacc, h => by
    unfold buildDeviceDict at h
    split at h
    · exact buildDeviceDict_inv seed rest acc dict hacc h
    · split at h
      · refine buildDeviceDict_inv seed rest _ dict ?_ h
        apply dictSet_forall (DevInv seed) acc e.extAddr (initDevice e) hacc
        refine ⟨rfl, ?_, ?_⟩
        · intro hc; exact absurd rfl hc
        · intro k hk; exact absurd hk (by simp [initDevice])
      · exact absurd h (by simp)

theorem applyHashed_inv (seed : List Nat) :
    ∀ (items : List (List Nat × Nat × Nat × List Nat))
      (dict dict' : List (List Nat × StoredDevice)),
      (∀ p ∈ dict, DevInv seed p) → applyHashed seed dict items = .ok dict' →
        ∀ p ∈ dict', DevInv seed p
  | [], dict, dict', hdict, h => by
    simp only [applyHashed, Except.ok.injEq] at h
    rw [← h]; exact hdict
  | (ieee, tx, rx, key) :: rest, dict, dict', hdict, h => by
    unfold applyHashed at h
    split at h
    · exact absurd h (by simp)
    · rename_i d hd
      refine applyHashed_inv seed rest _ dict' ?_ h
      have hieee : d.ieee = ieee := (hdict _ (dictLookup_mem dict ieee d hd)).1
      apply dictSet_forall (DevInv seed) dict ieee _ hdict
      refine ⟨hieee, ?_, ?_⟩
      · intro _ hc; exact Option.noConfusion hc
      · intro k hk
        simp only [Option.some.injEq] at hk
        refine ⟨Option.noConfusion, Option.noConfusion, ?_⟩
        rw [← hk, hieee]

theorem readUnhashedAux_ok_nil :
    ∀ (entries : List APSLinkKeyTableEntry) (st : Nvram)
      (am : List AddrMgrEntry) (l : List (List Nat × Nat × Nat × List Nat)),
      readUnhashedAux st am entries = .ok l → l = []
  | [], _, _, l, h => by
    simp only [readUnhashedAux, Except.ok.injEq] at h
    rw [← h]
  | e :: rest, st, am, l, h => by
    unfold readUnhashedAux at h
    split at h
    · exact readUnhashedAux_ok_nil rest st am l h
    · rw [show e.getattr "LinkKeyNvId"
          = Except.error (PyErr.attributeError "LinkKeyNvId") from rfl] at h
      exact absurd h (by simp)

theorem read_unhashed_ok_nil (st : Nvram) (am : List AddrMgrEntry)
    (l : List (List Nat × Nat × Nat × List Nat))
    (h : read_unhashed_link_keys st am = .ok l) : l = [] := by
  unfold read_unhashed_link_keys at h
  split at h
  · simp only [Except.ok.injEq] at h
    rw [← h]
  · split at h
    · exact absurd h (by simp)
    · exact readUnhashedAux_ok_nil _ st am l h

theorem tclkSeedRead_some (st : Nvram) (seed? : Option (List Nat))
    (h : tclkSeedRead st = .ok seed?) :
    ∀ s, seed? = some s → s = st.tclkSeed := by
  unfold tclkSeedRead at h
  intro s hs
  split at h
  · split at h
    · exact absurd h (by simp)
    · simp only [Except.ok.injEq] at h
      rw [← h] at hs
      simp only [Option.some.injEq] at hs
      exact hs.symm
  · simp only [Except.ok.injEq] at h
    rw [← h] at hs
    exact absurd hs (by simp)

/-- C7: every `StoredDevice` a successful `read_devices` returns satisfies
the data-model invariant: `hashed_link_key_shift` is present only alongside
`aps_link_key`; and whenever `aps_link_key` is present, both counters are
present and the shift equals `find_key_shift(ieee, aps_link_key, seed)` for
the currently stored seed — re-derived, never taken verbatim from the stored
entry's `SeedShift_IcIndex` field. -/
theorem C7_read_devices_invariant (st : Nvram) (devs : List StoredDevice)
    (h : read_devices st = .ok devs) :
    ∀ d ∈ devs,
      (d.hashed_link_key_shift ≠ none → d.aps_link_key ≠ none) ∧
      (∀ k, d.aps_link_key = some k →
        d.tx_counter ≠ none ∧ d.rx_counter ≠ none ∧
        d.hashed_link_key_shift = find_key_shift d.ieee k st.tclkSeed) := by
  unfold read_devices at h
  split at h
  · exact absurd h (by simp)
  · rename_i seed? hseed
    split at h
    · exact absurd h (by simp)
    · rename_i dict0 hdict0
      split at h
      · exact absurd h (by simp)
      · rename_i hashed hhashed
        split at h
        · exact absurd h (by simp)
        · rename_i dict1 hdict1
          split at h
          · exact absurd h (by simp)
          · rename_i unhashed hunhashed
            split at h
            · exact absurd h (by simp)
            · rename_i dict2 hdict2
              simp only [Except.ok.injEq] at h
              have hnil := read_unhashed_ok_nil st st.addrMgr unhashed hunhashed
              rw [hnil] at hdict2
              simp only [applyUnhashed, Except.ok.injEq] at hdict2
              have hinv0 : ∀ p ∈ dict0, DevInv st.tclkSeed p :=
                buildDeviceDict_inv st.tclkSeed st.addrMgr [] dict0
                  (by simp) hdict0
              have hinv1 : ∀ p ∈ dict1, DevInv st.tclkSeed p := by
                cases hs : seed? with
                | none =>
                  rw [hs] at hdict1
                  simp only [Except.ok.injEq] at hdict1
                  rw [← hdict1]; exact hinv0
                | some s =>
                  rw [hs] at hdict1
                  have hseq := tclkSeedRead_some st seed? hseed s hs
                  rw [hseq] at hdict1
                  exact applyHashed_inv st.tclkSeed hashed dict0 dict1 hinv0 hdict1
              intro d hd
              rw [← h] at hd
              rw [← hdict2] at hd
              obtain ⟨p, hp, hpd⟩ := List.mem_map.mp hd
              obtain ⟨-, h2, h3⟩ := hinv1 p hp
              rw [← hpd]
              exact ⟨h2, h3⟩

/-- Witness for C7: a state with one associated device and no key tables;
the returned device carries no key, no counters and no shift, satisfying the
invariant. -/
theorem C7_witness :
    read_devices
        { version := .v3_30, tclkSeedSecured := false,
          tclkSeed := List.replicate 16 0,
          addrMgr := [{ type := 1, nwkAddr := 1, extAddr := List.replicate 8 1 }],
          apsLinkKeyTableBytes := [0, 0], tclkTable := [],
          apsKeyDataSecured := false, apsKeyData := [] } =
      .ok [{ ieee := List.replicate 8 1, nwk := 1 }] ∧
    ∀ d ∈ [({ ieee := List.replicate 8 1, nwk := 1 } : StoredDevice)],
      (d.hashed_link_key_shift ≠ none → d.aps_link_key ≠ none) ∧
      (∀ k, d.aps_link_key = some k →
        d.tx_counter ≠ none ∧ d.rx_counter ≠ none ∧
        d.hashed_link_key_shift =
          find_key_shift d.ieee k (List.replicate 16 0)) :=
  ⟨rfl,
    C7_read_devices_invariant
      { version := .v3_30, tclkSeedSecured := false,
        tclkSeed := List.replicate 16 0,
        addrMgr := [{ type := 1, nwkAddr := 1, extAddr := List.replicate 8 1 }],
        apsLinkKeyTableBytes := [0, 0], tclkTable := [],
        apsKeyDataSecured := false, apsKeyData := [] }
      [{ ieee := List.replicate 8 1, nwk := 1 }] rfl⟩

/-! ## Claim C4: counter increment and the write/read round trip -/

/-- A successful `find_key_shift` pins the key down: it must be
`compute_key` of the seed at the found shift. -/
theorem find_key_shift_recovers_key (ieee k s : List Nat) (sh : Nat)
    (hieee : ieee.length = 8) (hk : k.length = 16) (hs : s.length = 16)
    (hfind : find_key_shift ieee k s = some sh) :
    compute_key ieee s sh = k := by
  unfold find_key_shift at hfind
  have hpred := List.find?_some hfind
  have hmem := List.mem_of_find?_eq_some hfind
  have hsh : sh < 16 := List.mem_range.mp hmem
  rw [beq_iff_eq] at hpred
  unfold compute_seed at hpred
  have hXlen : (List.zipWith (fun a b => a ^^^ b) k (ieee ++ ieee)).length
      = s.length := by
    simp [hieee, hk, hs]
  have hX := (rotate_neg_eq_iff _ s sh hXlen (by omega)).mp hpred
  unfold compute_key
  rw [← hX]
  apply zipWith_xor_cancel
  simp [hieee, hk]

/-- The TCLK entries the build phase emits when every key matches the seed:
one per keyed device, in input order. -/
def mkHashedEntries (s : List Nat) (inc : Nat)
    (devices : List StoredDevice) : List TCLKDevEntry :=
  (devices.filter (·.hasKey)).map fun d =>
    { txFrmCntr := d.tx_counter.getD 0 + inc,
      rxFrmCntr := d.rx_counter.getD 0,
      extAddr := d.ieee,
      keyAttributes := KeyAttributes.DEFAULT_KEY,
      keyType := KeyType.NWK,
      SeedShift_IcIndex := (find_key_shift d.ieee (d.aps_link_key.getD []) s).getD 0 }

/-- The hypotheses C4 needs of each device: a well-formed address and, if the
device holds a key, a 16-byte key derivable from the seed plus both
counters (the spec's own data-model invariant). -/
def GoodDevice (s : List Nat) (d : StoredDevice) : Prop :=
  d.ieee.length = 8 ∧ d.ieee ≠ List.replicate 8 0 ∧ d.nwk ≠ 0xFFFF ∧
  (d.hasKey = true →
    ∃ k sh tx rx, d.aps_link_key = some k ∧ k.length = 16 ∧
      find_key_shift d.ieee k s = some sh ∧
      d.tx_counter = some tx ∧ d.rx_counter = some rx)

/-- When every keyed device's key matches the seed, the build phase succeeds
with only hashed entries. -/
theorem buildTables_all_derivable (s : List Nat) (inc : Nat) (version : Version) :
    ∀ (devices : List StoredDevice) (index apsCount : Nat),
      (∀ d ∈ devices, GoodDevice s d) →
      buildTables (some s) inc version index apsCount devices =
        .ok (mkHashedEntries s inc devices, [], [])
  | [], _, _, _ => by simp [buildTables, mkHashedEntries]
  | d :: rest, index, apsCount, hgood => by
    have hrest := buildTables_all_derivable s inc version rest (index + 1) apsCount
      (fun d' hd' => hgood d' (List.mem_cons_of_mem d hd'))
    unfold buildTables
    split
    · rename_i hk
      have hnk : d.hasKey = false := by simp [StoredDevice.hasKey, hk]
      rw [hrest]
      unfold mkHashedEntries
      rw [List.filter_cons_of_neg (by simp [hnk])]
    · rename_i k hk
      by_cases hke : k.isEmpty
      · rw [if_pos hke]
        have hnk : d.hasKey = false := by simp [StoredDevice.hasKey, hk, hke]
        rw [hrest]
        unfold mkHashedEntries
        rw [List.filter_cons_of_neg (by simp [hnk])]
      · rw [if_neg hke]
        have hkey : d.hasKey = true := by simp [StoredDevice.hasKey, hk, hke]
        obtain ⟨-, -, -, hderiv⟩ := hgood d (List.mem_cons_self d rest)
        obtain ⟨k', sh, tx, rx, hk', -, hsh, htx, hrx⟩ := hderiv hkey
        rw [hk] at hk'
        simp only [Option.some.injEq] at hk'
        subst hk'
        rw [htx, hrx]
        have hshift : findKeyShiftOpt (some s) d.ieee k = some sh := by
          unfold findKeyShiftOpt
          exact hsh
        rw [hshift, hrest]
        have h1 : d.aps_link_key.getD [] = k := by rw [hk]; rfl
        have h3 : d.tx_counter.getD 0 = tx := by rw [htx]; rfl
        have h4 : d.rx_counter.getD 0 = rx := by rw [hrx]; rfl
        have hcons : mkHashedEntries s inc (d :: rest) =
            ({ txFrmCntr := tx + inc, rxFrmCntr := rx, extAddr := d.ieee,
               keyAttributes := KeyAttributes.DEFAULT_KEY, keyType := KeyType.NWK,
               SeedShift_IcIndex := sh } : TCLKDevEntry) ::
              mkHashedEntries s inc rest := by
          unfold mkHashedEntries
          rw [List.filter_cons_of_pos (by simp [hkey]), List.map_cons, h1, h3, h4,
            hsh]
          rfl
        rw [hcons]

theorem mkAddrMgrEntries_length (devices : List StoredDevice) :
    (mkAddrMgrEntries devices).length = devices.length := by
  simp [mkAddrMgrEntries]

theorem write_addr_manager_entries_ok_of_le (st : Nvram)
    (devices : List StoredDevice)
    (h : (mkAddrMgrEntries devices).length ≤ st.addrMgr.length) :
    write_addr_manager_entries st devices =
      .ok ({ st with addrMgr := paddedAddrMgr st devices },
        .addrMgr (paddedAddrMgr st devices)) := by
  unfold write_addr_manager_entries writeTable
  have hng : ¬ (mkAddrMgrEntries devices).length > st.addrMgr.length := by omega
  split
  · simp only [if_neg hng]
    rfl
  · simp only [if_neg hng]
    rfl

/-- The NVRAM state after a fully successful `write_devices` whose devices
all carry seed-derivable keys. -/
def roundTripState (st : Nvram) (devices : List StoredDevice) (s : List Nat)
    (inc : Nat) : Nvram :=
  { st with
    addrMgr := paddedAddrMgr st devices,
    apsLinkKeyTableBytes := paddedLinkKeyBytes st [],
    tclkTable := mkHashedEntries s inc devices ++
      List.replicate (st.tclkTable.length - (mkHashedEntries s inc devices).length)
        tclkFillEntry,
    apsKeyData := List.replicate st.apsKeyData.length apsKeyDataFillEntry }

theorem write_devices_roundtrip (st : Nvram) (devices : List StoredDevice)
    (inc : Nat) (s : List Nat)
    (hgood : ∀ d ∈ devices, GoodDevice s d)
    (hcap1 : devices.length ≤ st.addrMgr.length)
    (hcap2 : (devices.filter (·.hasKey)).length ≤ st.tclkTable.length)
    (hcap3 : 2 ≤ st.apsLinkKeyTableBytes.length) :
    write_devices st devices inc (some s) =
      ⟨.ok (), roundTripState st devices s inc,
        [.addrMgr (paddedAddrMgr st devices),
         .apsLinkKeyTable (paddedLinkKeyBytes st []),
         .tclkTable (mkHashedEntries s inc devices ++
           List.replicate
             (st.tclkTable.length - (mkHashedEntries s inc devices).length)
             tclkFillEntry),
         .apsKeyDataTable
           (List.replicate st.apsKeyData.length apsKeyDataFillEntry)]⟩ := by
  have hchoice : writeSeedChoice devices (some s) = some s := rfl
  have hbuild := buildTables_all_derivable s inc st.version devices 0 0 hgood
  have hover : ¬ ((serializeAPSLinkKeyTable ([] : List APSLinkKeyTableEntry)).length
      > st.apsLinkKeyTableBytes.length) := by
    have : (serializeAPSLinkKeyTable ([] : List APSLinkKeyTableEntry)).length = 2 := rfl
    omega
  have haddr := write_addr_manager_entries_ok_of_le st devices
    (by rw [mkAddrMgrEntries_length]; exact hcap1)
  have hmklen : (mkHashedEntries s inc devices).length
      = (devices.filter (·.hasKey)).length := by
    simp [mkHashedEntries]
  have ht : writeTable st.tclkTable (mkHashedEntries s inc devices) tclkFillEntry
      = .ok (mkHashedEntries s inc devices ++
          List.replicate
            (st.tclkTable.length - (mkHashedEntries s inc devices).length)
            tclkFillEntry) := by
    unfold writeTable
    rw [if_neg (by omega)]
  have hk : writeTable st.apsKeyData ([] : List APSKeyDataTableEntry)
      apsKeyDataFillEntry
      = .ok (List.replicate st.apsKeyData.length apsKeyDataFillEntry) := by
    unfold writeTable
    simp
  unfold write_devices
  rw [hchoice]
  simp only [hbuild, if_neg hover, haddr, ht, hk]
  rfl

/-- Python dict insertion of a fresh key appends. -/
theorem dictSet_fresh :
    ∀ (acc : List (List Nat × StoredDevice)) (key : List Nat) (v : StoredDevice),
      (∀ p ∈ acc, p.1 ≠ key) → dictSet acc key v = acc ++ [(key, v)]
  | [], _, _, _ => rfl
  | (k, w) :: rest, key, v, hfresh => by
    unfold dictSet
    rw [if_neg (hfresh (k, w) (List.mem_cons_self _ _))]
    rw [dictSet_fresh rest key v (fun p hp => hfresh p (List.mem_cons_of_mem _ hp))]
    rfl

theorem dictLookup_append_fresh :
    ∀ (A : List (List Nat × StoredDevice)) (key : List Nat) (v : StoredDevice)
      (t : List (List Nat × StoredDevice)),
      (∀ p ∈ A, p.1 ≠ key) → dictLookup (A ++ (key, v) :: t) key = some v
  | [], key, v, t, _ => by
    rw [List.nil_append]
    unfold dictLookup
    rw [if_pos rfl]
  | (k, w) :: A, key, v, t, hfresh => by
    rw [List.cons_append]
    unfold dictLookup
    rw [if_neg (hfresh (k, w) (List.mem_cons_self _ _))]
    exact dictLookup_append_fresh A key v t
      (fun p hp => hfresh p (List.mem_cons_of_mem _ hp))

theorem dictSet_append_mid :
    ∀ (A : List (List Nat × StoredDevice)) (key : List Nat)
      (v v' : StoredDevice) (t : List (List Nat × StoredDevice)),
      (∀ p ∈ A, p.1 ≠ key) →
      dictSet (A ++ (key, v) :: t) key v' = A ++ (key, v') :: t
  | [], key, v, v', t, _ => by
    rw [List.nil_append, List.nil_append]
    unfold dictSet
    rw [if_pos rfl]
  | (k, w) :: A, key, v, v', t, hfresh => by
    rw [List.cons_append]
    unfold dictSet
    rw [if_neg (hfresh (k, w) (List.mem_cons_self _ _))]
    rw [dictSet_append_mid A key v v' t
      (fun p hp => hfresh p (List.mem_cons_of_mem _ hp))]
    rfl

theorem buildDeviceDict_replicate_empty :
    ∀ (m : Nat) (acc : List (List Nat × StoredDevice)),
      buildDeviceDict (List.replicate m EMPTY_ADDR_MGR_ENTRY) acc = .ok acc
  | 0, _ => rfl
  | m + 1, acc => by
    rw [List.replicate_succ]
    unfold buildDeviceDict
    rw [if_pos (show EMPTY_ADDR_MGR_ENTRY.nwkAddr = 0xFFFF from rfl)]
    exact buildDeviceDict_replicate_empty m acc

/-- The bare `StoredDevice` the address-manager pass creates for a device. -/
def initOf (d : StoredDevice) : StoredDevice := { ieee := d.ieee, nwk := d.nwk }

theorem buildDeviceDict_roundtrip :
    ∀ (devices : List StoredDevice) (m : Nat)
      (acc : List (List Nat × StoredDevice)),
      (∀ d ∈ devices, d.nwk ≠ 0xFFFF) →
      (∀ d ∈ devices, ∀ p ∈ acc, p.1 ≠ d.ieee) →
      (devices.map StoredDevice.ieee).Nodup →
      buildDeviceDict
          (mkAddrMgrEntries devices ++ List.replicate m EMPTY_ADDR_MGR_ENTRY) acc
        = .ok (acc ++ devices.map fun d => (d.ieee, initOf d))
  | [], m, acc, _, _, _ => by
    simp only [mkAddrMgrEntries, List.map_nil, List.nil_append]
    rw [buildDeviceDict_replicate_empty m acc]
    simp
  | d :: rest, m, acc, hnwk, hfresh, hnodup => by
    have hentry : mkAddrMgrEntries (d :: rest) ++
        List.replicate m EMPTY_ADDR_MGR_ENTRY =
        ({ type := if d.hasKey
              then AddrMgrUserType.Security ||| AddrMgrUserType.Assoc
              else AddrMgrUserType.Assoc,
           nwkAddr := d.nwk, extAddr := d.ieee } : AddrMgrEntry) ::
          (mkAddrMgrEntries rest ++ List.replicate m EMPTY_ADDR_MGR_ENTRY) := rfl
    rw [hentry]
    unfold buildDeviceDict
    rw [if_neg (hnwk d (List.mem_cons_self _ _))]
    have htype : ((if d.hasKey
          then AddrMgrUserType.Security ||| AddrMgrUserType.Assoc
          else AddrMgrUserType.Assoc) = AddrMgrUserType.Assoc ∨
        (if d.hasKey
          then AddrMgrUserType.Security ||| AddrMgrUserType.Assoc
          else AddrMgrUserType.Assoc) =
          (AddrMgrUserType.Assoc ||| AddrMgrUserType.Security)) := by
      by_cases hk : d.hasKey
      · right
        rw [if_pos hk]
        decide
      · left
        rw [if_neg hk]
    rw [if_pos htype]
    rw [dictSet_fresh acc d.ieee _
      (fun p hp => hfresh d (List.mem_cons_self _ _) p hp)]
    have hrest := buildDeviceDict_roundtrip rest m (acc ++ [(d.ieee, initOf d)])
      (fun d' hd' => hnwk d' (List.mem_cons_of_mem _ hd'))
      (by
        intro d' hd' p hp
        rcases List.mem_append.mp hp with hpA | hpD
        · exact hfresh d' (List.mem_cons_of_mem _ hd') p hpA
        · simp only [List.mem_singleton] at hpD
          rw [hpD]
          simp only [List.map_cons, List.nodup_cons] at hnodup
          intro hcontra
          have hmem : d'.ieee ∈ List.map StoredDevice.ieee rest :=
            List.mem_map_of_mem StoredDevice.ieee hd'
          rw [← hcontra] at hmem
          exact hnodup.1 hmem)
      (by
        simp only [List.map_cons, List.nodup_cons] at hnodup
        exact hnodup.2)
    rw [show initDevice
        { type := if d.hasKey = true
            then AddrMgrUserType.Security ||| AddrMgrUserType.Assoc
            else AddrMgrUserType.Assoc,
          nwkAddr := d.nwk, extAddr := d.ieee } = initOf d from rfl]
    rw [hrest]
    simp [List.append_assoc, initOf]

theorem readHashedAux_replicate_fill (s : List Nat) :
    ∀ m : Nat, readHashedAux s (List.replicate m tclkFillEntry) = .ok []
  | 0 => rfl
  | m + 1 => by
    rw [List.replicate_succ]
    unfold readHashedAux
    rw [if_pos (show tclkFillEntry.extAddr = List.replicate 8 0 from rfl)]
    exact readHashedAux_replicate_fill s m

theorem readHashedAux_roundtrip (s : List Nat) (inc : Nat) (hs : s.length = 16) :
    ∀ (devices : List StoredDevice) (m : Nat),
      (∀ d ∈ devices, GoodDevice s d) →
      readHashedAux s
          (mkHashedEntries s inc devices ++ List.replicate m tclkFillEntry)
        = .ok ((devices.filter (·.hasKey)).map fun d =>
            (d.ieee, d.tx_counter.getD 0 + inc, d.rx_counter.getD 0,
              d.aps_link_key.getD []))
  | [], m, _ => by
    simp only [mkHashedEntries, List.filter_nil, List.map_nil, List.nil_append]
    exact readHashedAux_replicate_fill s m
  | d :: rest, m, hgood => by
    have hrest := readHashedAux_roundtrip s inc hs rest m
      (fun d' hd' => hgood d' (List.mem_cons_of_mem _ hd'))
    by_cases hk : d.hasKey = true
    · obtain ⟨hlen8, hnz, -, hderiv⟩ := hgood d (List.mem_cons_self _ _)
      obtain ⟨k, sh, tx, rx, hkk, hk16, hsh, htx, hrx⟩ := hderiv hk
      have hgetk : d.aps_link_key.getD [] = k := by rw [hkk]; rfl
      have hcons : mkHashedEntries s inc (d :: rest) ++
          List.replicate m tclkFillEntry =
          ({ txFrmCntr := d.tx_counter.getD 0 + inc,
             rxFrmCntr := d.rx_counter.getD 0,
             extAddr := d.ieee,
             keyAttributes := KeyAttributes.DEFAULT_KEY,
             keyType := KeyType.NWK,
             SeedShift_IcIndex :=
               (find_key_shift d.ieee (d.aps_link_key.getD []) s).getD 0 } :
            TCLKDevEntry) ::
            (mkHashedEntries s inc rest ++ List.replicate m tclkFillEntry) := by
        unfold mkHashedEntries
        rw [List.filter_cons_of_pos (by simp [hk]), List.map_cons]
        rfl
      rw [hcons]
      unfold readHashedAux
      rw [if_neg (by exact hnz)]
      have hdata : hashedKeyData s
          ({ txFrmCntr := d.tx_counter.getD 0 + inc,
             rxFrmCntr := d.rx_counter.getD 0,
             extAddr := d.ieee,
             keyAttributes := KeyAttributes.DEFAULT_KEY,
             keyType := KeyType.NWK,
             SeedShift_IcIndex :=
               (find_key_shift d.ieee (d.aps_link_key.getD []) s).getD 0 } :
            TCLKDevEntry) = k := by
        unfold hashedKeyData
        simp only [hgetk, hsh, Option.getD_some]
        exact find_key_shift_recovers_key d.ieee k s sh hlen8 hk16 hs hsh
      rw [if_neg (by rw [hdata]; omega)]
      rw [hrest]
      rw [List.filter_cons_of_pos (by simp [hk]), List.map_cons]
      rw [hdata]
      rw [List.take_of_length_le (by omega)]
      rw [hgetk]
    · have hskip : mkHashedEntries s inc (d :: rest) = mkHashedEntries s inc rest := by
        unfold mkHashedEntries
        rw [List.filter_cons_of_neg (by simp [hk])]
      rw [hskip, List.filter_cons_of_neg (by simp [hk])]
      exact hrest

/-- The state of one device after the write/read round trip: a keyed device
keeps its key, gets the re-derived shift, and its tx counter incremented by
`inc`; an unkeyed device comes back bare. -/
def roundTripDevice (s : List Nat) (inc : Nat) (d : StoredDevice) : StoredDevice :=
  if d.hasKey then
    { ieee := d.ieee, nwk := d.nwk,
      hashed_link_key_shift := find_key_shift d.ieee (d.aps_link_key.getD []) s,
      aps_link_key := some (d.aps_link_key.getD []),
      tx_counter := some (d.tx_counter.getD 0 + inc),
      rx_counter := some (d.rx_counter.getD 0) }
  else
    { ieee := d.ieee, nwk := d.nwk }

theorem applyHashed_cons_found (s : List Nat)
    (dict : List (List Nat × StoredDevice)) (ieee : List Nat) (tx rx : Nat)
    (key : List Nat) (rest : List (List Nat × Nat × Nat × List Nat))
    (d : StoredDevice) (hlook : dictLookup dict ieee = some d) :
    applyHashed s dict ((ieee, tx, rx, key) :: rest) =
      applyHashed s
        (dictSet dict ieee
          { d with tx_counter := some tx, rx_counter := some rx,
                   aps_link_key := some key,
                   hashed_link_key_shift := find_key_shift ieee key s })
        rest := by
  simp only [applyHashed, hlook]

theorem applyHashed_roundtrip (s : List Nat) (inc : Nat) :
    ∀ (devices : List StoredDevice) (A : List (List Nat × StoredDevice)),
      (devices.map StoredDevice.ieee).Nodup →
      (∀ d ∈ devices, ∀ p ∈ A, p.1 ≠ d.ieee) →
      applyHashed s (A ++ devices.map fun d => (d.ieee, initOf d))
          ((devices.filter (·.hasKey)).map fun d =>
            (d.ieee, d.tx_counter.getD 0 + inc, d.rx_counter.getD 0,
              d.aps_link_key.getD []))
        = .ok (A ++ devices.map fun d => (d.ieee, roundTripDevice s inc d))
  | [], A, _, _ => by
    simp only [List.filter_nil, List.map_nil, List.append_nil]
    rfl
  | d :: rest, A, hnodup, hfresh => by
    simp only [List.map_cons, List.nodup_cons] at hnodup
    have hfreshA' : ∀ d' ∈ rest, ∀ p ∈ A ++ [(d.ieee, roundTripDevice s inc d)],
        p.1 ≠ d'.ieee := by
      intro d' hd' p hp
      rcases List.mem_append.mp hp with hpA | hpD
      · exact hfresh d' (List.mem_cons_of_mem _ hd') p hpA
      · simp only [List.mem_singleton] at hpD
        rw [hpD]
        intro hcontra
        have hmem : d'.ieee ∈ List.map StoredDevice.ieee rest :=
          List.mem_map_of_mem StoredDevice.ieee hd'
        rw [← hcontra] at hmem
        exact hnodup.1 hmem
    have hfreshA : ∀ p ∈ A, p.1 ≠ d.ieee :=
      fun p hp => hfresh d (List.mem_cons_self _ _) p hp
    by_cases hk : d.hasKey = true
    · rw [List.filter_cons_of_pos (by simp [hk]), List.map_cons, List.map_cons]
      rw [applyHashed_cons_found s _ d.ieee _ _ _ _ (initOf d)
        (dictLookup_append_fresh A d.ieee (initOf d) _ hfreshA)]
      rw [dictSet_append_mid A d.ieee (initOf d) _ _ hfreshA]
      have hupd : ({ initOf d with
          tx_counter := some (d.tx_counter.getD 0 + inc),
          rx_counter := some (d.rx_counter.getD 0),
          aps_link_key := some (d.aps_link_key.getD []),
          hashed_link_key_shift :=
            find_key_shift d.ieee (d.aps_link_key.getD []) s } : StoredDevice)
          = roundTripDevice s inc d := by
        unfold roundTripDevice
        rw [if_pos hk]
        rfl
      rw [hupd]
      have := applyHashed_roundtrip s inc rest
        (A ++ [(d.ieee, roundTripDevice s inc d)]) hnodup.2 hfreshA'
      simp only [List.append_assoc, List.singleton_append] at this
      exact this
    · rw [List.filter_cons_of_neg (by simp [hk]), List.map_cons]
      have hinit : initOf d = roundTripDevice s inc d := by
        unfold roundTripDevice
        rw [if_neg hk]
        rfl
      have := applyHashed_roundtrip s inc rest (A ++ [(d.ieee, initOf d)])
        hnodup.2 (by
          intro d' hd' p hp
          rcases List.mem_append.mp hp with hpA | hpD
          · exact hfresh d' (List.mem_cons_of_mem _ hd') p hpA
          · simp only [List.mem_singleton] at hpD
            rw [hpD]
            intro hcontra
            have hmem : d'.ieee ∈ List.map StoredDevice.ieee rest :=
              List.mem_map_of_mem StoredDevice.ieee hd'
            rw [← hcontra] at hmem
            exact hnodup.1 hmem)
      simp only [List.append_assoc, List.singleton_append] at this
      rw [List.map_cons, this, hinit]

theorem read_devices_roundtrip (st : Nvram) (devices : List StoredDevice)
    (inc : Nat) (s : List Nat)
    (hver : st.version = .v3_30)
    (hsec : st.tclkSeedSecured = false)
    (hseed : st.tclkSeed = s)
    (hs : s.length = 16)
    (hgood : ∀ d ∈ devices, GoodDevice s d)
    (hnodup : (devices.map StoredDevice.ieee).Nodup) :
    read_devices (roundTripState st devices s inc)
      = .ok (devices.map (roundTripDevice s inc)) := by
  have hseedread : tclkSeedRead (roundTripState st devices s inc)
      = .ok (some s) := by
    unfold tclkSeedRead
    rw [show (roundTripState st devices s inc).version = st.version from rfl, hver]
    rw [show (roundTripState st devices s inc).tclkSeedSecured
        = st.tclkSeedSecured from rfl, hsec]
    rw [show (roundTripState st devices s inc).tclkSeed = st.tclkSeed from rfl,
      hseed]
    rfl
  have hdict : buildDeviceDict (roundTripState st devices s inc).addrMgr []
      = .ok ([] ++ devices.map fun d => (d.ieee, initOf d)) := by
    rw [show (roundTripState st devices s inc).addrMgr
        = mkAddrMgrEntries devices ++
          List.replicate (st.addrMgr.length - (mkAddrMgrEntries devices).length)
            EMPTY_ADDR_MGR_ENTRY from rfl]
    exact buildDeviceDict_roundtrip devices _ []
      (fun d hd => (hgood d hd).2.2.1) (by simp) hnodup
  have hhash : read_hashed_link_keys (some s)
      (roundTripState st devices s inc).tclkTable
      = .ok ((devices.filter (·.hasKey)).map fun d =>
          (d.ieee, d.tx_counter.getD 0 + inc, d.rx_counter.getD 0,
            d.aps_link_key.getD [])) := by
    unfold read_hashed_link_keys
    rw [show (roundTripState st devices s inc).tclkTable
        = mkHashedEntries s inc devices ++
          List.replicate
            (st.tclkTable.length - (mkHashedEntries s inc devices).length)
            tclkFillEntry from rfl]
    exact readHashedAux_roundtrip s inc hs devices _ hgood
  have happly : applyHashed s ([] ++ devices.map fun d => (d.ieee, initOf d))
      ((devices.filter (·.hasKey)).map fun d =>
        (d.ieee, d.tx_counter.getD 0 + inc, d.rx_counter.getD 0,
          d.aps_link_key.getD []))
      = .ok ([] ++ devices.map fun d => (d.ieee, roundTripDevice s inc d)) :=
    applyHashed_roundtrip s inc devices [] hnodup (by simp)
  have hunh : read_unhashed_link_keys (roundTripState st devices s inc)
      (roundTripState st devices s inc).addrMgr = .ok [] := by
    unfold read_unhashed_link_keys
    by_cases hsec2 : (roundTripState st devices s inc).apsKeyDataSecured = true
    · rw [if_pos hsec2]
    · rw [if_neg hsec2]
      have hdes : deserializeAPSLinkKeyTable
          (roundTripState st devices s inc).apsLinkKeyTableBytes =
          .ok ([], List.replicate
            (st.apsLinkKeyTableBytes.length -
              (serializeAPSLinkKeyTable ([] : List APSLinkKeyTableEntry)).length)
            0x00) := rfl
      rw [hdes]
      rfl
  unfold read_devices
  simp only [hseedread, hdict, hhash, happly, hunh]
  simp only [applyUnhashed]
  simp only [List.nil_append, List.map_map, Except.ok.injEq]
  rfl

/-- C4: under the conditions in which the round trip is defined at all —
typed-table firmware, a disclosable stored seed equal to the seed given to
`write_devices`, well-formed devices whose keys are all derivable from that
seed (a non-derivable key aborts the write with the `LinkKeyNvId` failure,
see C9), distinct addresses and sufficient table capacities — `write_devices`
succeeds; every keyed device contributes a hashed-table (TCLK) entry whose tx
frame counter is the device's `tx_counter` plus `counter_increment` and whose
rx frame counter is unchanged; and after the `write_devices`/`read_devices`
round trip each such device carries the re-derived
`hashed_link_key_shift = find_key_shift(ieee, key, seed)`, its original key,
a tx counter equal to the original plus `counter_increment`, and an
unchanged rx counter. -/
theorem C4_counter_increment_round_trip (st : Nvram)
    (devices : List StoredDevice) (inc : Nat) (s : List Nat)
    (hver : st.version = .v3_30)
    (hsec : st.tclkSeedSecured = false)
    (hseed : st.tclkSeed = s)
    (hs : s.length = 16)
    (hgood : ∀ d ∈ devices, GoodDevice s d)
    (hnodup : (devices.map StoredDevice.ieee).Nodup)
    (hcap1 : devices.length ≤ st.addrMgr.length)
    (hcap2 : (devices.filter (·.hasKey)).length ≤ st.tclkTable.length)
    (hcap3 : 2 ≤ st.apsLinkKeyTableBytes.length) :
    (write_devices st devices inc (some s)).result = .ok () ∧
    (∀ d ∈ devices, ∀ k, d.aps_link_key = some k → d.hasKey = true →
      ∃ sh tx rx, find_key_shift d.ieee k s = some sh ∧
        d.tx_counter = some tx ∧ d.rx_counter = some rx ∧
        ∃ l, WriteEvent.tclkTable l ∈ (write_devices st devices inc (some s)).trace ∧
          ({ txFrmCntr := tx + inc, rxFrmCntr := rx, extAddr := d.ieee,
             keyAttributes := KeyAttributes.DEFAULT_KEY, keyType := KeyType.NWK,
             SeedShift_IcIndex := sh } : TCLKDevEntry) ∈ l) ∧
    read_devices (write_devices st devices inc (some s)).state
      = .ok (devices.map (roundTripDevice s inc)) ∧
    (∀ d ∈ devices, ∀ k, d.aps_link_key = some k → d.hasKey = true →
      ∃ d', d' ∈ devices.map (roundTripDevice s inc) ∧ d'.ieee = d.ieee ∧
        d'.aps_link_key = some k ∧
        d'.hashed_link_key_shift = find_key_shift d.ieee k s ∧
        (∀ tx, d.tx_counter = some tx → d'.tx_counter = some (tx + inc)) ∧
        d'.rx_counter = d.rx_counter) := by
  have hw := write_devices_roundtrip st devices inc s hgood hcap1 hcap2 hcap3
  refine ⟨by rw [hw], ?_, ?_, ?_⟩
  · intro d hd k hkk hkey
    obtain ⟨-, -, -, hderiv⟩ := hgood d hd
    obtain ⟨k', sh, tx, rx, hkk', -, hsh, htx, hrx⟩ := hderiv hkey
    rw [hkk] at hkk'
    simp only [Option.some.injEq] at hkk'
    subst hkk'
    refine ⟨sh, tx, rx, hsh, htx, hrx, ?_⟩
    refine ⟨mkHashedEntries s inc devices ++
      List.replicate (st.tclkTable.length - (mkHashedEntries s inc devices).length)
        tclkFillEntry, ?_, ?_⟩
    · rw [hw]
      simp
    · apply List.mem_append_left
      unfold mkHashedEntries
      have hdmem : d ∈ devices.filter (·.hasKey) :=
        List.mem_filter.mpr ⟨hd, by simp [hkey]⟩
      have := List.mem_map_of_mem
        (fun d : StoredDevice =>
          ({ txFrmCntr := d.tx_counter.getD 0 + inc,
             rxFrmCntr := d.rx_counter.getD 0,
             extAddr := d.ieee,
             keyAttributes := KeyAttributes.DEFAULT_KEY,
             keyType := KeyType.NWK,
             SeedShift_IcIndex :=
               (find_key_shift d.ieee (d.aps_link_key.getD []) s).getD 0 } :
            TCLKDevEntry)) hdmem
      have hgetk : d.aps_link_key.getD [] = k := by rw [hkk]; rfl
      have hentryeq :
          ({ txFrmCntr := d.tx_counter.getD 0 + inc,
             rxFrmCntr := d.rx_counter.getD 0,
             extAddr := d.ieee,
             keyAttributes := KeyAttributes.DEFAULT_KEY,
             keyType := KeyType.NWK,
             SeedShift_IcIndex :=
               (find_key_shift d.ieee (d.aps_link_key.getD []) s).getD 0 } :
            TCLKDevEntry) =
          { txFrmCntr := tx + inc, rxFrmCntr := rx, extAddr := d.ieee,
            keyAttributes := KeyAttributes.DEFAULT_KEY, keyType := KeyType.NWK,
            SeedShift_IcIndex := sh } := by
        rw [hgetk, hsh, htx, hrx]
        rfl
      rw [← hentryeq]
      exact this
  · rw [hw]
    exact read_devices_roundtrip st devices inc s hver hsec hseed hs hgood hnodup
  · intro d hd k hkk hkey
    refine ⟨roundTripDevice s inc d,
      List.mem_map_of_mem (roundTripDevice s inc) hd, ?_, ?_, ?_, ?_, ?_⟩
    · unfold roundTripDevice
      rw [if_pos hkey]
    · unfold roundTripDevice
      rw [if_pos hkey]
      rw [show (d.aps_link_key.getD []) = k from by rw [hkk]; rfl]
    · unfold roundTripDevice
      rw [if_pos hkey]
      rw [show (d.aps_link_key.getD []) = k from by rw [hkk]; rfl]
    · intro tx htx
      unfold roundTripDevice
      rw [if_pos hkey]
      rw [show d.tx_counter.getD 0 = tx from by rw [htx]; rfl]
    · obtain ⟨-, -, -, hderiv⟩ := hgood d hd
      obtain ⟨k', sh, tx, rx, -, -, -, -, hrx⟩ := hderiv hkey
      unfold roundTripDevice
      rw [if_pos hkey]
      rw [show d.rx_counter.getD 0 = rx from by rw [hrx]; rfl, hrx]

/-- Concrete state for the C4 witness: one slot in each table, a 2-byte
(empty) stored indirection table, seed bytes 0..15. -/
def C4SampleState : Nvram :=
  { version := .v3_30, tclkSeedSecured := false, tclkSeed := List.range 16,
    addrMgr := [EMPTY_ADDR_MGR_ENTRY], apsLinkKeyTableBytes := [0, 0],
    tclkTable := [tclkFillEntry], apsKeyDataSecured := false, apsKeyData := [] }

/-- Concrete device for the C4 witness: its key is the seed hashed at
shift 3. -/
def C4SampleDevice : StoredDevice :=
  { ieee := [1, 2, 3, 4, 5, 6, 7, 8], nwk := 1,
    aps_link_key := some (compute_key [1, 2, 3, 4, 5, 6, 7, 8] (List.range 16) 3),
    tx_counter := some 10, rx_counter := some 20 }

/-- Witness for C4 at the concrete sample: the write succeeds, the TCLK
entry carries `tx + 2500`, and the read-back returns the round-tripped
device. -/
theorem C4_witness :
    (write_devices C4SampleState [C4SampleDevice] 2500
      (some (List.range 16))).result = .ok () ∧
    (∀ d ∈ [C4SampleDevice], ∀ k, d.aps_link_key = some k → d.hasKey = true →
      ∃ sh tx rx, find_key_shift d.ieee k (List.range 16) = some sh ∧
        d.tx_counter = some tx ∧ d.rx_counter = some rx ∧
        ∃ l, WriteEvent.tclkTable l ∈
            (write_devices C4SampleState [C4SampleDevice] 2500
              (some (List.range 16))).trace ∧
          ({ txFrmCntr := tx + 2500, rxFrmCntr := rx, extAddr := d.ieee,
             keyAttributes := KeyAttributes.DEFAULT_KEY, keyType := KeyType.NWK,
             SeedShift_IcIndex := sh } : TCLKDevEntry) ∈ l) ∧
    read_devices (write_devices C4SampleState [C4SampleDevice] 2500
        (some (List.range 16))).state
      = .ok ([C4SampleDevice].map (roundTripDevice (List.range 16) 2500)) ∧
    (∀ d ∈ [C4SampleDevice], ∀ k, d.aps_link_key = some k → d.hasKey = true →
      ∃ d', d' ∈ [C4SampleDevice].map (roundTripDevice (List.range 16) 2500) ∧
        d'.ieee = d.ieee ∧ d'.aps_link_key = some k ∧
        d'.hashed_link_key_shift = find_key_shift d.ieee k (List.range 16) ∧
        (∀ tx, d.tx_counter = some tx → d'.tx_counter = some (tx + 2500)) ∧
        d'.rx_counter = d.rx_counter) :=
  C4_counter_increment_round_trip C4SampleState [C4SampleDevice] 2500
    (List.range 16) rfl rfl rfl (by decide)
    (by
      intro d hd
      simp only [List.mem_singleton] at hd
      subst hd
      exact ⟨by decide, by decide, by decide,
        fun _ => ⟨compute_key [1, 2, 3, 4, 5, 6, 7, 8] (List.range 16) 3, 3, 10, 20,
          rfl, by decide, by decide, rfl, rfl⟩⟩)
    (by decide) (by decide) (by decide) (by decide)

end ZnpSec
